import Mathlib

/-!
Verification of the Hackathon Blackjack repository (client.py, protocol.py,
server.py) against its natural-language specification.

Bytes are modelled as natural numbers < 256 and byte buffers as `List Nat`.
Text fields (server name, team name, client decision) are modelled at the
byte level: a Python `str` is represented by its UTF-8 byte sequence, so
`s.encode('utf-8')` is the identity and `bytes.decode('utf-8')` is the
identity on the byte list (the partiality of UTF-8 decoding is outside the
byte-level model; the parsers' magic/type/length checks are modelled exactly).
`struct.pack`/`struct.unpack` with the formats used in protocol.py become
explicit big-endian byte splitting and joining.  `struct.pack` raises for
out-of-range integer fields; the model truncates instead, and every theorem
about `build_*` carries the in-range hypotheses under which both agree.
-/

namespace Hackathon

/-- Protocol constant from protocol.py: `MAGIC_COOKIE = 0xabcddcba`. -/
def MAGIC_COOKIE : Nat := 0xabcddcba

/-- `MSG_TYPE_OFFER = 0x2`. -/
def MSG_TYPE_OFFER : Nat := 0x2

/-- `MSG_TYPE_REQUEST = 0x3`. -/
def MSG_TYPE_REQUEST : Nat := 0x3

/-- `MSG_TYPE_PAYLOAD = 0x4`. -/
def MSG_TYPE_PAYLOAD : Nat := 0x4

/-- Game result code `RESULT_WIN = 0x3`. -/
def RESULT_WIN : Nat := 0x3

/-- Game result code `RESULT_LOSS = 0x2`. -/
def RESULT_LOSS : Nat := 0x2

/-- Game result code `RESULT_TIE = 0x1`. -/
def RESULT_TIE : Nat := 0x1

/-- Game result code `RESULT_ACTIVE = 0x0`. -/
def RESULT_ACTIVE : Nat := 0x0

/-- Big-endian 2-byte encoding, as produced by `struct.pack` format `H`. -/
def u16be (n : Nat) : List Nat := [n / 256 % 256, n % 256]

/-- Big-endian 4-byte encoding, as produced by `struct.pack` format `I`. -/
def u32be (n : Nat) : List Nat :=
  [n / 16777216 % 256, n / 65536 % 256, n / 256 % 256, n % 256]

/-- Big-endian value of a byte list, as read by `struct.unpack`. -/
def beVal (bs : List Nat) : Nat := bs.foldl (fun acc b => acc * 256 + b) 0

/-- `s.encode('utf-8')[:w].ljust(w, b'\x00')` at the byte level: truncate a
byte string to width `w` and right-pad with zero bytes to exactly `w`. -/
def padTrunc (w : Nat) (s : List Nat) : List Nat :=
  s.take w ++ List.replicate (w - (s.take w).length) 0

/-- `bytes.rstrip(b'\x00')` at the byte level: strip trailing zero bytes. -/
def rstripZeros (s : List Nat) : List Nat :=
  (s.reverse.dropWhile (fun b => b == 0)).reverse

/-- Whether a byte sequence is valid (strict) UTF-8, i.e. whether Python's
`bytes.decode('utf-8')` succeeds on it: ASCII bytes stand alone; `C2..DF`
lead a 2-byte sequence; `E0`/`E1..EC,EE,EF`/`ED` lead 3-byte sequences
(with the first continuation restricted to `A0..BF` after `E0` — no
overlongs — and to `80..9F` after `ED` — no surrogates); `F0`/`F1..F3`/`F4`
lead 4-byte sequences (first continuation `90..BF` after `F0`, `80..8F`
after `F4` — nothing above U+10FFFF); every other lead byte, or a missing
or out-of-range continuation byte, makes the sequence invalid.  A parser
whose field fails this check returns `None` in protocol.py: the
`UnicodeDecodeError` is swallowed by the surrounding `try/except`. -/
def utf8Valid : List Nat → Bool
  | [] => true
  | b :: rest =>
    if b < 0x80 then utf8Valid rest
    else if 0xC2 ≤ b ∧ b ≤ 0xDF then
      match rest with
      | c1 :: rest' =>
        if 0x80 ≤ c1 ∧ c1 ≤ 0xBF then utf8Valid rest' else false
      | [] => false
    else if b = 0xE0 then
      match rest with
      | c1 :: c2 :: rest' =>
        if (0xA0 ≤ c1 ∧ c1 ≤ 0xBF) ∧ (0x80 ≤ c2 ∧ c2 ≤ 0xBF) then utf8Valid rest'
        else false
      | _ => false
    else if (0xE1 ≤ b ∧ b ≤ 0xEC) ∨ b = 0xEE ∨ b = 0xEF then
      match rest with
      | c1 :: c2 :: rest' =>
        if (0x80 ≤ c1 ∧ c1 ≤ 0xBF) ∧ (0x80 ≤ c2 ∧ c2 ≤ 0xBF) then utf8Valid rest'
        else false
      | _ => false
    else if b = 0xED then
      match rest with
      | c1 :: c2 :: rest' =>
        if (0x80 ≤ c1 ∧ c1 ≤ 0x9F) ∧ (0x80 ≤ c2 ∧ c2 ≤ 0xBF) then utf8Valid rest'
        else false
      | _ => false
    else if b = 0xF0 then
      match rest with
      | c1 :: c2 :: c3 :: rest' =>
        if (0x90 ≤ c1 ∧ c1 ≤ 0xBF) ∧ (0x80 ≤ c2 ∧ c2 ≤ 0xBF) ∧ (0x80 ≤ c3 ∧ c3 ≤ 0xBF) then
          utf8Valid rest'
        else false
      | _ => false
    else if 0xF1 ≤ b ∧ b ≤ 0xF3 then
      match rest with
      | c1 :: c2 :: c3 :: rest' =>
        if (0x80 ≤ c1 ∧ c1 ≤ 0xBF) ∧ (0x80 ≤ c2 ∧ c2 ≤ 0xBF) ∧ (0x80 ≤ c3 ∧ c3 ≤ 0xBF) then
          utf8Valid rest'
        else false
      | _ => false
    else if b = 0xF4 then
      match rest with
      | c1 :: c2 :: c3 :: rest' =>
        if (0x80 ≤ c1 ∧ c1 ≤ 0x8F) ∧ (0x80 ≤ c2 ∧ c2 ≤ 0xBF) ∧ (0x80 ≤ c3 ∧ c3 ≤ 0xBF) then
          utf8Valid rest'
        else false
      | _ => false
    else false

/-- protocol.py `build_offer_packet(server_port, server_name)`:
`struct.pack('!IBH32s', MAGIC_COOKIE, MSG_TYPE_OFFER, server_port, name_bytes)`
with `name_bytes = server_name.encode('utf-8')[:32].ljust(32, b'\x00')`. -/
def build_offer_packet (server_port : Nat) (server_name : List Nat) : List Nat :=
  u32be MAGIC_COOKIE ++ [MSG_TYPE_OFFER] ++ u16be server_port ++ padTrunc 32 server_name

/-- protocol.py `parse_offer_packet(data)`: length check 39, unpack
`'!IBH32s'`, magic/type check, then `name.decode('utf-8').rstrip('\x00')` —
the decode runs only after the checks pass, and a `UnicodeDecodeError`
(name field not valid UTF-8) is caught by the `except`, returning `None`.
Stripping trailing zero characters of the decoded string equals stripping
trailing zero bytes, since `0x00` never occurs inside a multi-byte UTF-8
sequence. -/
def parse_offer_packet (data : List Nat) : Option (Nat × List Nat) :=
  if data.length = 39 then
    let magic := beVal (data.take 4)
    let m_type := beVal ((data.drop 4).take 1)
    let port := beVal ((data.drop 5).take 2)
    let name := (data.drop 7).take 32
    if magic = MAGIC_COOKIE ∧ m_type = MSG_TYPE_OFFER then
      if utf8Valid name then some (port, rstripZeros name) else none
    else none
  else none

/-- protocol.py `build_request_packet(num_rounds, team_name)`:
`struct.pack('!IBB32s', MAGIC_COOKIE, MSG_TYPE_REQUEST, num_rounds, name_bytes)`. -/
def build_request_packet (num_rounds : Nat) (team_name : List Nat) : List Nat :=
  u32be MAGIC_COOKIE ++ [MSG_TYPE_REQUEST] ++ [num_rounds % 256] ++ padTrunc 32 team_name

/-- protocol.py `parse_request_packet(data)`: length check 38, unpack
`'!IBB32s'`, magic/type check, then the team name is decoded (a failing
UTF-8 decode returns `None` via the `except`) and `rstrip('\x00')`-ed. -/
def parse_request_packet (data : List Nat) : Option (Nat × List Nat) :=
  if data.length = 38 then
    let magic := beVal (data.take 4)
    let m_type := beVal ((data.drop 4).take 1)
    let rounds := beVal ((data.drop 5).take 1)
    let name := (data.drop 6).take 32
    if magic = MAGIC_COOKIE ∧ m_type = MSG_TYPE_REQUEST then
      if utf8Valid name then some (rounds, rstripZeros name) else none
    else none
  else none

/-- protocol.py `build_server_payload(result, rank, suit)`:
`struct.pack('!IBBHB', MAGIC_COOKIE, MSG_TYPE_PAYLOAD, result, rank, suit)`. -/
def build_server_payload (result rank suit : Nat) : List Nat :=
  u32be MAGIC_COOKIE ++ [MSG_TYPE_PAYLOAD] ++ [result % 256] ++ u16be rank ++ [suit % 256]

/-- protocol.py `parse_server_payload(data)`: length check 9, unpack
`'!IBBHB'`, magic/type check. -/
def parse_server_payload (data : List Nat) : Option (Nat × Nat × Nat) :=
  if data.length = 9 then
    let magic := beVal (data.take 4)
    let m_type := beVal ((data.drop 4).take 1)
    let result := beVal ((data.drop 5).take 1)
    let rank := beVal ((data.drop 6).take 2)
    let suit := beVal ((data.drop 8).take 1)
    if magic = MAGIC_COOKIE ∧ m_type = MSG_TYPE_PAYLOAD then
      some (result, rank, suit)
    else none
  else none

/-- protocol.py `build_client_payload(decision)`:
`struct.pack('!IB5s', MAGIC_COOKIE, MSG_TYPE_PAYLOAD, decision.encode('utf-8')[:5])`;
the `5s` format zero-pads the truncated decision to exactly 5 bytes. -/
def build_client_payload (decision : List Nat) : List Nat :=
  u32be MAGIC_COOKIE ++ [MSG_TYPE_PAYLOAD] ++ padTrunc 5 decision

/-- protocol.py `parse_client_payload(data)`: length check 10, unpack
`'!IB5s'`, magic/type check, then `decision.decode('utf-8')` — a failing
decode returns `None` via the `except`; note the decoded decision is
returned WITHOUT stripping the zero padding (there is no `rstrip` in the
source). -/
def parse_client_payload (data : List Nat) : Option (List Nat) :=
  if data.length = 10 then
    let magic := beVal (data.take 4)
    let m_type := beVal ((data.drop 4).take 1)
    let decision := (data.drop 5).take 5
    if magic = MAGIC_COOKIE ∧ m_type = MSG_TYPE_PAYLOAD then
      if utf8Valid decision then some decision else none
    else none
  else none

/-- A card, as server.py builds it: a pair `(rank, suit)`, rank 1..13, suit 0..3. -/
abbrev Card := Nat × Nat

/-- One iteration of the accumulation loop of server.py `compute_hand_score`:
`if rank == 1: ace_count += 1; total_value += 11`,
`elif rank >= 10: total_value += 10`, `else: total_value += rank`.
The accumulator is `(total_value, ace_count)`. -/
def scoreStep (acc : Nat × Nat) (c : Card) : Nat × Nat :=
  if c.1 = 1 then (acc.1 + 11, acc.2 + 1)
  else if 10 ≤ c.1 then (acc.1 + 10, acc.2)
  else (acc.1 + c.1, acc.2)

/-- The `while total_value > 21 and ace_count > 0: total_value -= 10;
ace_count -= 1` loop of `compute_hand_score`, recursing on the ace count. -/
def softAceReduce : Nat → Nat → Nat
  | total, 0 => total
  | total, aces + 1 => if 21 < total then softAceReduce (total - 10) aces else total

/-- server.py `compute_hand_score(cards)`: accumulate value and ace count
over the hand, then run the soft-ace reduction loop. -/
def compute_hand_score (cards : List Card) : Nat :=
  (fun acc => softAceReduce acc.1 acc.2) (cards.foldl scoreStep (0, 0))

/-- Per-card value as the spec words it: Ace counts 11, ranks ≥ 10 and face
cards count 10, other ranks count their rank. -/
def cardValue (rank : Nat) : Nat :=
  if rank = 1 then 11 else if 10 ≤ rank then 10 else rank

/-- The fresh deck built at the top of server.py `run_single_round`:
`[(rank, suit) for rank in range(1, 14) for suit in range(4)]`. -/
def freshDeck : List Card :=
  ((List.range 13).map (fun r => (List.range 4).map (fun s => (r + 1, s)))).flatten

/-- Python `deck.pop()`: remove and return the LAST element of the list;
`none` models the `IndexError` raised when the list is empty (there is no
refill anywhere in server.py). -/
def deckPop (d : List Card) : Option (Card × List Card) :=
  match d.getLast? with
  | none => none
  | some c => some (c, d.dropLast)

/-- The exact decision string the server's player loop special-cases:
`if decision == "Hittt"` — the UTF-8 bytes of `"Hittt"`. -/
def hitToken : List Nat := [72, 105, 116, 116, 116]

/-- How the player-turn loop of `run_single_round` ended:
`stood` (a non-hit decision broke the loop, or the loop condition
`player_score < 21` was already false), `busted` (a hit pushed the score
over 21 and the function returned), `aborted` (`connection.recv` raised and
the `except: return` path ran), `deckEmpty` (`deck.pop()` on an empty deck —
an `IndexError`). -/
inductive PlayerStatus
  | stood
  | busted
  | aborted
  | deckEmpty
  deriving DecidableEq, Repr

/-- Result of the player-turn loop: remaining deck, final player hand, the
ServerPayload messages `(result_code, card)` sent during the loop, and how
the loop ended. -/
structure PlayerResult where
  deck : List Card
  hand : List Card
  sent : List (Nat × Card)
  status : PlayerStatus
  deriving DecidableEq, Repr

/-- The `while player_score < 21` player-turn loop of `run_single_round`.
`ds` holds one entry per `connection.recv`: `none` is a buffer that
`parse_client_payload` rejected (decision `None` in Python), `some bs` a
decoded 5-byte decision; exhausting the list models `recv` raising, i.e.
the `except Exception: return` path. -/
def playerTurn (deck hand : List Card) : List (Option (List Nat)) → PlayerResult
  | [] =>
    if compute_hand_score hand < 21 then ⟨deck, hand, [], .aborted⟩
    else ⟨deck, hand, [], .stood⟩
  | d :: rest =>
    if compute_hand_score hand < 21 then
      if d = some hitToken then
        match deckPop deck with
        | none => ⟨deck, hand, [], .deckEmpty⟩
        | some (c, deck') =>
          if 21 < compute_hand_score (hand ++ [c]) then
            ⟨deck', hand ++ [c], [(RESULT_LOSS, c)], .busted⟩
          else
            let r := playerTurn deck' (hand ++ [c]) rest
            ⟨r.deck, r.hand, (RESULT_ACTIVE, c) :: r.sent, r.status⟩
      else ⟨deck, hand, [], .stood⟩
    else ⟨deck, hand, [], .stood⟩

/-- Result of the dealer-turn loop: remaining deck, final dealer hand, the
messages sent by the loop, and `ok = false` iff `deck.pop()` hit an empty
deck (`IndexError`). -/
structure DealerResult where
  deck : List Card
  hand : List Card
  sent : List (Nat × Card)
  ok : Bool
  deriving DecidableEq, Repr

/-- The `while dealer_score < 17` dealer loop of `run_single_round`, with an
explicit iteration bound `fuel`: every iteration removes one card from the
deck, so the loop runs at most `deck.length` times and `dealerTurn` below
passes exactly that bound — the `fuel = 0` arm with a successful pop is
unreachable (a successful pop forces `0 < deck.length ≤ fuel`).  Each
iteration pops a card, appends it to the dealer hand, and sends it as
`RESULT_ACTIVE` (unconditionally — also when the draw pushes the dealer
over 21). -/
def dealerTurnFuel : Nat → List Card → List Card → DealerResult
  | fuel, deck, hand =>
    if compute_hand_score hand < 17 then
      match deckPop deck with
      | none => ⟨deck, hand, [], false⟩
      | some (c, deck') =>
        match fuel with
        | 0 => ⟨deck, hand, [], false⟩
        | f + 1 =>
          let r := dealerTurnFuel f deck' (hand ++ [c])
          ⟨r.deck, r.hand, (RESULT_ACTIVE, c) :: r.sent, r.ok⟩
    else ⟨deck, hand, [], true⟩

/-- The dealer loop at its real bound: `deck.length` pops suffice. -/
def dealerTurn (deck hand : List Card) : DealerResult :=
  dealerTurnFuel deck.length deck hand

/-- The comparison at the end of `run_single_round` (`# Determine Result`):
player bust ⇒ LOSS, else dealer bust ⇒ WIN, else higher value wins,
equal ⇒ TIE. -/
def resolveResult (player_score dealer_score : Nat) : Nat :=
  if 21 < player_score then RESULT_LOSS
  else if 21 < dealer_score then RESULT_WIN
  else if dealer_score < player_score then RESULT_WIN
  else if player_score < dealer_score then RESULT_LOSS
  else RESULT_TIE

/-- How a round ended: `resolved r` (final sentinel payload with result `r`),
`bustLoss` (player bust: LOSS sent with the busting card, early return),
`aborted` (`recv` raised during the player turn), `deckError` (an
`IndexError` escaped from `deck.pop()` on an empty deck). -/
inductive RoundOutcome
  | resolved (result : Nat)
  | bustLoss
  | aborted
  | deckError
  deriving DecidableEq, Repr

/-- Observable run of server.py `run_single_round` on a given shuffled deck:
all ServerPayload messages sent (in order), final hands, and the outcome. -/
structure RoundRun where
  sent : List (Nat × Card)
  playerHand : List Card
  dealerHand : List Card
  outcome : RoundOutcome
  deriving DecidableEq, Repr

/-- server.py `run_single_round`, parameterised by the shuffled deck (the
code builds `freshDeck` and calls `random.shuffle`; any permutation of
`freshDeck` is a possible value) and by the decoded client decisions.
Deals two cards to the player and two to the dealer (`deck.pop()` order),
sends player card 1, player card 2, dealer card 1 as `RESULT_ACTIVE`, runs
the player turn, and — unless the player busted or `recv` raised — reveals
the dealer's second card, runs the dealer loop, and sends the final result
payload with the sentinel card `(0, 0)`. -/
def run_single_round (deck : List Card) (ds : List (Option (List Nat))) : RoundRun :=
  match deckPop deck with
  | none => ⟨[], [], [], .deckError⟩
  | some (p1, deck1) =>
  match deckPop deck1 with
  | none => ⟨[], [p1], [], .deckError⟩
  | some (p2, deck2) =>
  match deckPop deck2 with
  | none => ⟨[], [p1, p2], [], .deckError⟩
  | some (q1, deck3) =>
  match deckPop deck3 with
  | none => ⟨[], [p1, p2], [q1], .deckError⟩
  | some (q2, deck4) =>
  let initialSent := [(RESULT_ACTIVE, p1), (RESULT_ACTIVE, p2), (RESULT_ACTIVE, q1)]
  let pr := playerTurn deck4 [p1, p2] ds
  match pr.status with
  | .aborted => ⟨initialSent ++ pr.sent, pr.hand, [q1, q2], .aborted⟩
  | .deckEmpty => ⟨initialSent ++ pr.sent, pr.hand, [q1, q2], .deckError⟩
  | .busted => ⟨initialSent ++ pr.sent, pr.hand, [q1, q2], .bustLoss⟩
  | .stood =>
    let dr := dealerTurn pr.deck [q1, q2]
    if dr.ok then
      let result := resolveResult (compute_hand_score pr.hand) (compute_hand_score dr.hand)
      ⟨initialSent ++ pr.sent ++ [(RESULT_ACTIVE, q2)] ++ dr.sent ++ [(result, (0, 0))],
       pr.hand, dr.hand, .resolved result⟩
    else
      ⟨initialSent ++ pr.sent ++ [(RESULT_ACTIVE, q2)] ++ dr.sent, pr.hand, dr.hand, .deckError⟩

/-- The names that module `protocol` actually defines — the `def`s of
src/protocol.py.  A Python attribute access `protocol.f` raises
`AttributeError` exactly when `f` is not in this list; client.py calls
`protocol.unpack_offer`, `protocol.pack_request`,
`protocol.unpack_payload_server` and `protocol.pack_payload_client`, none
of which exist. -/
def protocol_module_attrs : List String :=
  ["build_offer_packet", "parse_offer_packet", "build_request_packet",
   "parse_request_packet", "build_server_payload", "parse_server_payload",
   "build_client_payload", "parse_client_payload"]

/-- An exception escaping a piece of client code: `attributeError f` is the
uncaught `AttributeError` raised by looking up the nonexistent
`protocol.f`. -/
inductive ClientCrash
  | attributeError (missing : String)
  deriving DecidableEq, Repr

/-- An interactive input line, modelled as its character list (Python
`input()` result; `.lower()` becomes a map of `Char.toLower`). -/
abbrev InputLine := List Char

/-- Python `str.lower()` on an input line. -/
def lowerLine (move : InputLine) : InputLine := move.map Char.toLower

/-- The `while True` prompt loop of client.py `get_player_action`: read one
line, lowercase it; on `"h"`/`"hit"` or `"s"`/`"stand"` the code then
evaluates `protocol.pack_payload_client(...)` — an attribute that
src/protocol.py does not define (it defines `build_client_payload`) — so
the send raises `AttributeError` before anything reaches the socket; any
other line re-prompts without reaching a send.  `some crash` is that
uncaught exception; `none` models blocking forever on exhausted input
(only invalid lines were entered). -/
def promptLoop : List InputLine → Option ClientCrash
  | [] => none
  | move :: rest =>
    if lowerLine move = ['h'] ∨ lowerLine move = ['h', 'i', 't'] then
      some (ClientCrash.attributeError "pack_payload_client")
    else if lowerLine move = ['s'] ∨ lowerLine move = ['s', 't', 'a', 'n', 'd'] then
      some (ClientCrash.attributeError "pack_payload_client")
    else promptLoop rest

/-- client.py `get_player_action(connection, current_sum)`: at a score of
exactly 21 it goes straight to
`connection.sendall(protocol.pack_payload_client("Stand"))`, whose
attribute lookup raises `AttributeError` without prompting; otherwise it
runs the interactive prompt loop, which raises the same `AttributeError`
at the first valid decision.  The function can therefore never return an
action or send a payload: it either blocks on input or raises. -/
def get_player_action (current_sum : Nat) (inputs : List InputLine) :
    Option ClientCrash :=
  if current_sum = 21 then some (ClientCrash.attributeError "pack_payload_client")
  else promptLoop inputs

/-- One iteration of the outer `while` of client.py `run_game_loop`, given
the bytes one `recv` returned: an empty read breaks out of the loop
normally; a read shorter than 9 bytes never enters the frame loop; a read
with at least one full 9-byte frame reaches
`protocol.unpack_payload_server(packet)` (client.py line 100) — an
attribute src/protocol.py does not define (it defines
`parse_server_payload`) — and the `AttributeError` escapes the
`except OSError` handler, so no payload is ever parsed or handled. -/
def run_game_loop_recv (data : List Nat) : Option ClientCrash :=
  if data.length = 0 then none
  else if 9 ≤ data.length then some (ClientCrash.attributeError "unpack_payload_server")
  else none

/-- The round-local state of client.py `run_game_loop`: win and round
counters plus the per-round shadow state (`player_sum`, `ace_counter`,
`cards_counter`, `is_player_turn`). -/
structure ClientState where
  wins_count : Nat
  rounds_completed : Nat
  player_sum : Nat
  ace_counter : Nat
  cards_counter : Nat
  is_player_turn : Bool
  deriving DecidableEq, Repr

/-- Console output of the client, one constructor per `print` in the
terminal-payload branch of `run_game_loop`; `finished` carries the win and
round counts whose float quotient the code formats (the division itself is
display formatting of these two integers). -/
inductive ClientEvent
  | drawnCard (rank suit : Nat)
  | resultWin
  | resultTie
  | resultLoss
  | newRound
  | finished (wins total : Nat)
  deriving DecidableEq, Repr

/-- The `result_code != RESULT_ACTIVE` (end-of-round) branch of client.py
`run_game_loop` (lines 107-138), taken in isolation: print the card when
its rank is nonzero, print the result and bump the win counter on WIN and
on TIE, bump `rounds_completed`, print the round separator when more rounds
remain, reset the round-local shadow state, and after the last requested
round emit the win-rate line and leave the loop (the returned Bool is that
`return`).  In the program as staged this branch is unreachable: the code
that would feed it a parsed payload crashes first on the nonexistent
`protocol.unpack_payload_server` (see `run_game_loop_recv`). -/
def handle_terminal_payload (total_rounds : Nat) (st : ClientState)
    (result rank suit : Nat) : ClientState × List ClientEvent × Bool :=
  let cardEvents := if rank ≠ 0 then [ClientEvent.drawnCard rank suit] else []
  let resStep :=
    if result = RESULT_WIN then ([ClientEvent.resultWin], st.wins_count + 1)
    else if result = RESULT_TIE then ([ClientEvent.resultTie], st.wins_count + 1)
    else ([ClientEvent.resultLoss], st.wins_count)
  let rc := st.rounds_completed + 1
  let roundEvents := if rc < total_rounds then [ClientEvent.newRound] else []
  let st' : ClientState := ⟨resStep.2, rc, 0, 0, 0, true⟩
  if rc = total_rounds then
    (st', cardEvents ++ resStep.1 ++ roundEvents
            ++ [ClientEvent.finished resStep.2 total_rounds], true)
  else
    (st', cardEvents ++ resStep.1 ++ roundEvents, false)

theorem padTrunc_length (w : Nat) (s : List Nat) : (padTrunc w s).length = w := by
  simp [padTrunc]

theorem rstripZeros_append_replicate (s : List Nat) (k : Nat) :
    rstripZeros (s ++ List.replicate k 0) = rstripZeros s := by
  induction k with
  | zero => simp
  | succ n ih =>
    have : s ++ List.replicate (n + 1) 0 = (s ++ List.replicate n 0) ++ [0] := by
      rw [List.replicate_succ']
      simp
    rw [this]
    simp only [rstripZeros, List.reverse_append] at *
    simpa using ih

theorem rstripZeros_of_nonzero (s : List Nat) (h : ∀ b ∈ s, b ≠ 0) :
    rstripZeros s = s := by
  unfold rstripZeros
  have hd : s.reverse.dropWhile (fun b => b == 0) = s.reverse := by
    apply List.dropWhile_eq_self_iff.mpr
    intro hl
    have hmem : s.reverse.get ⟨0, hl⟩ ∈ s :=
      List.mem_reverse.mp (s.reverse.get_mem 0 hl)
    simpa using h _ hmem
  rw [hd, List.reverse_reverse]

theorem rstripZeros_padTrunc (w : Nat) (s : List Nat) (h : ∀ b ∈ s, b ≠ 0) :
    rstripZeros (padTrunc w s) = s.take w := by
  unfold padTrunc
  rw [rstripZeros_append_replicate]
  exact rstripZeros_of_nonzero _ (fun b hb => h b (s.take_subset w hb))

theorem beVal_u16be (n : Nat) (h : n < 65536) : beVal (u16be n) = n := by
  simp [beVal, u16be]
  omega

/-- Encode-then-decode for the offer packet, before stripping padding; the
hypothesis is exactly the condition under which the program's
`name.decode('utf-8')` succeeds on the truncated, padded field. -/
theorem parse_build_offer (port : Nat) (name : List Nat) (hport : port < 65536)
    (hvalid : utf8Valid (padTrunc 32 name) = true) :
    parse_offer_packet (build_offer_packet port name) =
      some (port, rstripZeros (padTrunc 32 name)) := by
  set L := build_offer_packet port name with hL
  have hlen : L.length = 39 := by
    simp [hL, build_offer_packet, u32be, u16be, padTrunc_length]
  have h4 : L.take 4 = u32be MAGIC_COOKIE := by
    rw [hL, build_offer_packet, List.append_assoc, List.append_assoc]
    exact List.take_left' rfl
  have hd4 : L.drop 4 = [MSG_TYPE_OFFER] ++ (u16be port ++ padTrunc 32 name) := by
    rw [hL, build_offer_packet, List.append_assoc, List.append_assoc]
    exact List.drop_left' rfl
  have hd5 : L.drop 5 = u16be port ++ padTrunc 32 name := by
    have h' : L.drop 5 = (L.drop 4).drop 1 := by rw [List.drop_drop]
    rw [h', hd4]
    exact List.drop_left' rfl
  have hd7 : L.drop 7 = padTrunc 32 name := by
    have h' : L.drop 7 = (L.drop 5).drop 2 := by rw [List.drop_drop]
    rw [h', hd5]
    exact List.drop_left' rfl
  have ht1 : (L.drop 4).take 1 = [MSG_TYPE_OFFER] := by
    rw [hd4]; exact List.take_left' rfl
  have ht2 : (L.drop 5).take 2 = u16be port := by
    rw [hd5]; exact List.take_left' rfl
  have ht32 : (L.drop 7).take 32 = padTrunc 32 name := by
    rw [hd7]
    exact List.take_of_length_le (by rw [padTrunc_length])
  have hmagic : beVal (u32be MAGIC_COOKIE) = MAGIC_COOKIE := by decide
  rw [parse_offer_packet, if_pos hlen, h4, ht1, ht2, ht32, hmagic, beVal_u16be port hport]
  simp [beVal, MSG_TYPE_OFFER, hvalid]

/-- Encode-then-decode for the request packet, before stripping padding;
the hypothesis is the success condition of the team-name UTF-8 decode. -/
theorem parse_build_request (rounds : Nat) (name : List Nat) (hrounds : rounds < 256)
    (hvalid : utf8Valid (padTrunc 32 name) = true) :
    parse_request_packet (build_request_packet rounds name) =
      some (rounds, rstripZeros (padTrunc 32 name)) := by
  set L := build_request_packet rounds name with hL
  have hlen : L.length = 38 := by
    simp [hL, build_request_packet, u32be, padTrunc_length]
  have h4 : L.take 4 = u32be MAGIC_COOKIE := by
    rw [hL, build_request_packet, List.append_assoc, List.append_assoc]
    exact List.take_left' rfl
  have hd4 : L.drop 4 = [MSG_TYPE_REQUEST] ++ ([rounds % 256] ++ padTrunc 32 name) := by
    rw [hL, build_request_packet, List.append_assoc, List.append_assoc]
    exact List.drop_left' rfl
  have hd5 : L.drop 5 = [rounds % 256] ++ padTrunc 32 name := by
    have h' : L.drop 5 = (L.drop 4).drop 1 := by rw [List.drop_drop]
    rw [h', hd4]
    exact List.drop_left' rfl
  have hd6 : L.drop 6 = padTrunc 32 name := by
    have h' : L.drop 6 = (L.drop 5).drop 1 := by rw [List.drop_drop]
    rw [h', hd5]
    exact List.drop_left' rfl
  have ht1 : (L.drop 4).take 1 = [MSG_TYPE_REQUEST] := by
    rw [hd4]; exact List.take_left' rfl
  have ht1' : (L.drop 5).take 1 = [rounds % 256] := by
    rw [hd5]; exact List.take_left' rfl
  have ht32 : (L.drop 6).take 32 = padTrunc 32 name := by
    rw [hd6]
    exact List.take_of_length_le (by rw [padTrunc_length])
  have hmagic : beVal (u32be MAGIC_COOKIE) = MAGIC_COOKIE := by decide
  rw [parse_request_packet, if_pos hlen, h4, ht1, ht1', ht32, hmagic]
  simp [beVal, MSG_TYPE_REQUEST, Nat.mod_eq_of_lt hrounds, hvalid]

/-- Encode-then-decode for the server payload (purely numeric fields). -/
theorem parse_build_server (result rank suit : Nat)
    (hres : result < 256) (hrank : rank < 65536) (hsuit : suit < 256) :
    parse_server_payload (build_server_payload result rank suit) =
      some (result, rank, suit) := by
  set L := build_server_payload result rank suit with hL
  have hlen : L.length = 9 := by
    simp [hL, build_server_payload, u32be, u16be]
  have h4 : L.take 4 = u32be MAGIC_COOKIE := by
    rw [hL, build_server_payload, List.append_assoc, List.append_assoc, List.append_assoc]
    exact List.take_left' rfl
  have hd4 : L.drop 4 = [MSG_TYPE_PAYLOAD] ++ ([result % 256] ++ (u16be rank ++ [suit % 256])) := by
    rw [hL, build_server_payload, List.append_assoc, List.append_assoc, List.append_assoc]
    exact List.drop_left' rfl
  have hd5 : L.drop 5 = [result % 256] ++ (u16be rank ++ [suit % 256]) := by
    have h' : L.drop 5 = (L.drop 4).drop 1 := by rw [List.drop_drop]
    rw [h', hd4]
    exact List.drop_left' rfl
  have hd6 : L.drop 6 = u16be rank ++ [suit % 256] := by
    have h' : L.drop 6 = (L.drop 5).drop 1 := by rw [List.drop_drop]
    rw [h', hd5]
    exact List.drop_left' rfl
  have hd8 : L.drop 8 = [suit % 256] := by
    have h' : L.drop 8 = (L.drop 6).drop 2 := by rw [List.drop_drop]
    rw [h', hd6]
    exact List.drop_left' rfl
  have ht1 : (L.drop 4).take 1 = [MSG_TYPE_PAYLOAD] := by
    rw [hd4]; exact List.take_left' rfl
  have htres : (L.drop 5).take 1 = [result % 256] := by
    rw [hd5]; exact List.take_left' rfl
  have htrank : (L.drop 6).take 2 = u16be rank := by
    rw [hd6]; exact List.take_left' rfl
  have htsuit : (L.drop 8).take 1 = [suit % 256] := by
    rw [hd8]
    exact List.take_of_length_le (by simp)
  have hmagic : beVal (u32be MAGIC_COOKIE) = MAGIC_COOKIE := by decide
  rw [parse_server_payload, if_pos hlen, h4, ht1, htres, htrank, htsuit, hmagic,
      beVal_u16be rank hrank]
  simp [beVal, MSG_TYPE_PAYLOAD, Nat.mod_eq_of_lt hres, Nat.mod_eq_of_lt hsuit]

/-- Encode-then-decode for the client payload: when the truncated, padded
command field decodes as UTF-8, the decision is returned zero-padded to
exactly 5 bytes because `parse_client_payload` never strips. -/
theorem parse_build_client (decision : List Nat)
    (hvalid : utf8Valid (padTrunc 5 decision) = true) :
    parse_client_payload (build_client_payload decision) =
      some (padTrunc 5 decision) := by
  set L := build_client_payload decision with hL
  have hlen : L.length = 10 := by
    simp [hL, build_client_payload, u32be, padTrunc_length]
  have h4 : L.take 4 = u32be MAGIC_COOKIE := by
    rw [hL, build_client_payload, List.append_assoc]
    exact List.take_left' rfl
  have hd4 : L.drop 4 = [MSG_TYPE_PAYLOAD] ++ padTrunc 5 decision := by
    rw [hL, build_client_payload, List.append_assoc]
    exact List.drop_left' rfl
  have hd5 : L.drop 5 = padTrunc 5 decision := by
    have h' : L.drop 5 = (L.drop 4).drop 1 := by rw [List.drop_drop]
    rw [h', hd4]
    exact List.drop_left' rfl
  have ht1 : (L.drop 4).take 1 = [MSG_TYPE_PAYLOAD] := by
    rw [hd4]; exact List.take_left' rfl
  have ht5 : (L.drop 5).take 5 = padTrunc 5 decision := by
    rw [hd5]
    exact List.take_of_length_le (by rw [padTrunc_length])
  have hmagic : beVal (u32be MAGIC_COOKIE) = MAGIC_COOKIE := by decide
  rw [parse_client_payload, if_pos hlen, h4, ht1, ht5, hmagic]
  simp [beVal, MSG_TYPE_PAYLOAD, hvalid]

theorem parse_offer_reject (data : List Nat)
    (h : data.length ≠ 39 ∨ beVal (data.take 4) ≠ MAGIC_COOKIE ∨
         beVal ((data.drop 4).take 1) ≠ MSG_TYPE_OFFER) :
    parse_offer_packet data = none := by
  rcases h with h | h | h <;> simp [parse_offer_packet, h]

theorem parse_request_reject (data : List Nat)
    (h : data.length ≠ 38 ∨ beVal (data.take 4) ≠ MAGIC_COOKIE ∨
         beVal ((data.drop 4).take 1) ≠ MSG_TYPE_REQUEST) :
    parse_request_packet data = none := by
  rcases h with h | h | h <;> simp [parse_request_packet, h]

theorem parse_server_reject (data : List Nat)
    (h : data.length ≠ 9 ∨ beVal (data.take 4) ≠ MAGIC_COOKIE ∨
         beVal ((data.drop 4).take 1) ≠ MSG_TYPE_PAYLOAD) :
    parse_server_payload data = none := by
  rcases h with h | h | h <;> simp [parse_server_payload, h]

theorem parse_client_reject (data : List Nat)
    (h : data.length ≠ 10 ∨ beVal (data.take 4) ≠ MAGIC_COOKIE ∨
         beVal ((data.drop 4).take 1) ≠ MSG_TYPE_PAYLOAD) :
    parse_client_payload data = none := by
  rcases h with h | h | h <;> simp [parse_client_payload, h]

/-- C1 (counterexample): the round-trip claim fails on the code in two
ways.  (a) ClientPayload: encoding the 3-byte command "Hit" (bytes
72,105,116) and decoding it does not give back the original command,
because `parse_client_payload` returns the 5-byte field without stripping
the zero padding that `struct.pack('!IB5s', ...)` added.  (b) Offer
(truncated-from-longer case): a 33-byte name of 31 `'a'`s followed by
`'é'` (bytes 0xC3 0xA9) is truncated at byte 32, splitting the two-byte
character; the parse's `name.decode('utf-8')` raises `UnicodeDecodeError`
and the parser returns `None` instead of the truncated name. -/
theorem C1_roundtrip_counterexample :
    parse_client_payload (build_client_payload [72, 105, 116]) ≠ some [72, 105, 116] ∧
    parse_offer_packet
        (build_offer_packet 8080 (List.replicate 31 97 ++ [0xC3, 0xA9])) = none := by
  constructor
  · decide
  · decide

/-- C1 (amended): decoding the encoding recovers the original message for
Offer and Request when the numeric fields are in their struct ranges, the
name bytes are nonzero, and the name's 32-byte truncation (with zero
padding) is still valid UTF-8 — overlong names are then recovered by byte
truncation, while a truncation that splits a multi-byte UTF-8 character
makes the decode fail and the parse return `None`.  ServerPayload (purely
numeric) round-trips for in-range fields.  For ClientPayload, decoding the
encoding yields the command zero-padded to exactly 5 bytes
(`parse_client_payload` strips nothing), so the round trip holds precisely
for valid-UTF-8 commands already exactly 5 bytes long. -/
theorem C1_roundtrip :
    (∀ port name, port < 65536 → (∀ b ∈ name, b ≠ 0) →
      utf8Valid (padTrunc 32 name) = true →
      parse_offer_packet (build_offer_packet port name) = some (port, name.take 32)) ∧
    (∀ rounds name, rounds < 256 → (∀ b ∈ name, b ≠ 0) →
      utf8Valid (padTrunc 32 name) = true →
      parse_request_packet (build_request_packet rounds name) = some (rounds, name.take 32)) ∧
    (∀ result rank suit, result < 256 → rank < 65536 → suit < 256 →
      parse_server_payload (build_server_payload result rank suit) =
        some (result, rank, suit)) ∧
    (∀ decision, utf8Valid (padTrunc 5 decision) = true →
      parse_client_payload (build_client_payload decision) = some (padTrunc 5 decision)) ∧
    (∀ decision, decision.length = 5 → utf8Valid decision = true →
      parse_client_payload (build_client_payload decision) = some decision) := by
  refine ⟨?_, ?_, ?_, ?_, ?_⟩
  · intro port name hport hname hvalid
    rw [parse_build_offer port name hport hvalid, rstripZeros_padTrunc 32 name hname]
  · intro rounds name hrounds hname hvalid
    rw [parse_build_request rounds name hrounds hvalid, rstripZeros_padTrunc 32 name hname]
  · intro result rank suit hres hrank hsuit
    exact parse_build_server result rank suit hres hrank hsuit
  · intro decision hvalid
    exact parse_build_client decision hvalid
  · intro decision hd hvalid
    have hpt : padTrunc 5 decision = decision := by
      unfold padTrunc
      rw [List.take_of_length_le (by omega), hd]
      simp
    rw [parse_build_client decision (by rw [hpt]; exact hvalid), hpt]

/-- C1 (witness): the amended round trip evaluated at concrete packets —
an offer for port 8080 with the 3-byte name "Nad", and the exact 5-byte
client command "Hittt". -/
theorem C1_roundtrip_witness :
    parse_offer_packet (build_offer_packet 8080 [78, 97, 100]) = some (8080, [78, 97, 100]) ∧
    parse_client_payload (build_client_payload [72, 105, 116, 116, 116]) =
      some [72, 105, 116, 116, 116] := by
  constructor
  · exact (C1_roundtrip.1 8080 [78, 97, 100] (by decide) (by decide) (by decide)).trans
      (by decide)
  · exact C1_roundtrip.2.2.2.2 [72, 105, 116, 116, 116] (by decide) (by decide)

/-- C5: every parser rejects a buffer of the wrong length, a magic value
other than `MAGIC_COOKIE`, or a wrong type tag, returning `none`; the
parsers are total Lean functions, so no exception can escape (matching the
`try/except: return None` in protocol.py). -/
theorem C5_parse_rejects (data : List Nat) :
    (data.length ≠ 39 ∨ beVal (data.take 4) ≠ MAGIC_COOKIE ∨
        beVal ((data.drop 4).take 1) ≠ MSG_TYPE_OFFER →
      parse_offer_packet data = none) ∧
    (data.length ≠ 38 ∨ beVal (data.take 4) ≠ MAGIC_COOKIE ∨
        beVal ((data.drop 4).take 1) ≠ MSG_TYPE_REQUEST →
      parse_request_packet data = none) ∧
    (data.length ≠ 9 ∨ beVal (data.take 4) ≠ MAGIC_COOKIE ∨
        beVal ((data.drop 4).take 1) ≠ MSG_TYPE_PAYLOAD →
      parse_server_payload data = none) ∧
    (data.length ≠ 10 ∨ beVal (data.take 4) ≠ MAGIC_COOKIE ∨
        beVal ((data.drop 4).take 1) ≠ MSG_TYPE_PAYLOAD →
      parse_client_payload data = none) :=
  ⟨parse_offer_reject data, parse_request_reject data,
   parse_server_reject data, parse_client_reject data⟩

/-- C5 (witness): concrete rejections — a short buffer rejected by all four
parsers, and a 39-byte all-zero buffer rejected by the offer parser for its
flipped magic. -/
theorem C5_parse_rejects_witness :
    parse_offer_packet [1, 2, 3] = none ∧
    parse_request_packet [1, 2, 3] = none ∧
    parse_server_payload [1, 2, 3] = none ∧
    parse_client_payload [1, 2, 3] = none ∧
    parse_offer_packet (List.replicate 39 0) = none := by
  refine ⟨(C5_parse_rejects [1, 2, 3]).1 (Or.inl (by decide)),
          (C5_parse_rejects [1, 2, 3]).2.1 (Or.inl (by decide)),
          (C5_parse_rejects [1, 2, 3]).2.2.1 (Or.inl (by decide)),
          (C5_parse_rejects [1, 2, 3]).2.2.2 (Or.inl (by decide)),
          (C5_parse_rejects (List.replicate 39 0)).1 (Or.inr (Or.inl (by decide)))⟩

theorem foldl_scoreStep (l : List Card) (t a : Nat) :
    l.foldl scoreStep (t, a) =
      (t + (l.map (fun c => cardValue c.1)).sum, a + l.countP (fun c => c.1 == 1)) := by
  induction l generalizing t a with
  | nil => simp
  | cons c l ih =>
    rw [List.foldl_cons, List.map_cons, List.sum_cons]
    by_cases h1 : c.1 = 1
    · simp [scoreStep, cardValue, h1, ih, List.countP_cons]
      omega
    · by_cases h10 : 10 ≤ c.1
      · simp [scoreStep, cardValue, h1, h10, ih, List.countP_cons]
        omega
      · simp [scoreStep, cardValue, h1, h10, ih, List.countP_cons]
        omega

theorem compute_hand_score_eq (cards : List Card) :
    compute_hand_score cards =
      softAceReduce ((cards.map (fun c => cardValue c.1)).sum)
        (cards.countP (fun c => c.1 == 1)) := by
  unfold compute_hand_score
  rw [foldl_scoreStep]
  simp

/-- C3: the hand value is the sum of per-card values (Ace 11, rank ≥ 10 and
face cards 10, other ranks their rank) reduced by 10 per counted Ace while
the total exceeds 21; in particular value {Ace, King} = 21,
value {Ace, Ace, 9} = 21, value {Ace, Ace, Ace, 8} = 21, and
value {King, Queen, 5} = 25 (a bust is reported as > 21, not clamped). -/
theorem C3_hand_value :
    compute_hand_score [(1, 0), (13, 1)] = 21 ∧
    compute_hand_score [(1, 0), (1, 1), (9, 2)] = 21 ∧
    compute_hand_score [(1, 0), (1, 1), (1, 2), (8, 3)] = 21 ∧
    compute_hand_score [(13, 0), (12, 1), (5, 2)] = 25 ∧
    (∀ cards : List Card, compute_hand_score cards =
      softAceReduce ((cards.map (fun c => cardValue c.1)).sum)
        (cards.countP (fun c => c.1 == 1))) :=
  ⟨by decide, by decide, by decide, by decide, compute_hand_score_eq⟩

/-- C10: `compute_hand_score` is invariant under permutation of the hand —
the value depends only on the multiset of cards, because the sum and the ace
count are accumulated before the reduction loop runs. -/
theorem C10_perm_invariant (c1 c2 : List Card) (h : c1.Perm c2) :
    compute_hand_score c1 = compute_hand_score c2 := by
  rw [compute_hand_score_eq, compute_hand_score_eq, (h.map _).sum_eq, h.countP_eq]

/-- C10 (witness): a concrete reordering of {Ace, King, 5} scores equally. -/
theorem C10_perm_invariant_witness :
    compute_hand_score [(1, 0), (13, 1), (5, 2)] =
      compute_hand_score [(5, 2), (1, 0), (13, 1)] :=
  C10_perm_invariant _ _ (by decide)

theorem playerTurn_of_ge (deck hand : List Card) (ds : List (Option (List Nat)))
    (h : 21 ≤ compute_hand_score hand) :
    playerTurn deck hand ds = ⟨deck, hand, [], .stood⟩ := by
  cases ds with
  | nil => rw [playerTurn, if_neg (by omega)]
  | cons d rest => rw [playerTurn, if_neg (by omega)]

theorem playerTurn_stand (deck hand : List Card) (ds : List (Option (List Nat)))
    (d : Option (List Nat)) (h : compute_hand_score hand < 21) (hd : d ≠ some hitToken) :
    playerTurn deck hand (d :: ds) = ⟨deck, hand, [], .stood⟩ := by
  rw [playerTurn, if_pos h]
  simp only [if_neg hd]

theorem playerTurn_hit_bust (deck deck' hand : List Card) (ds : List (Option (List Nat)))
    (c : Card) (h : compute_hand_score hand < 21) (hpop : deckPop deck = some (c, deck'))
    (hbust : 21 < compute_hand_score (hand ++ [c])) :
    playerTurn deck hand (some hitToken :: ds) =
      ⟨deck', hand ++ [c], [(RESULT_LOSS, c)], .busted⟩ := by
  rw [playerTurn, if_pos h]
  simp only [if_pos rfl, hpop, if_pos hbust]
  simp

theorem playerTurn_hit_ok (deck deck' hand : List Card) (ds : List (Option (List Nat)))
    (c : Card) (h : compute_hand_score hand < 21) (hpop : deckPop deck = some (c, deck'))
    (hok : compute_hand_score (hand ++ [c]) ≤ 21) :
    playerTurn deck hand (some hitToken :: ds) =
      ⟨(playerTurn deck' (hand ++ [c]) ds).deck,
       (playerTurn deck' (hand ++ [c]) ds).hand,
       (RESULT_ACTIVE, c) :: (playerTurn deck' (hand ++ [c]) ds).sent,
       (playerTurn deck' (hand ++ [c]) ds).status⟩ := by
  rw [playerTurn, if_pos h]
  simp only [if_pos rfl, hpop, if_neg (by omega : ¬ 21 < compute_hand_score (hand ++ [c]))]
  simp

theorem playerTurn_empty_deck (deck hand : List Card) (ds : List (Option (List Nat)))
    (h : compute_hand_score hand < 21) (hpop : deckPop deck = none) :
    playerTurn deck hand (some hitToken :: ds) = ⟨deck, hand, [], .deckEmpty⟩ := by
  rw [playerTurn, if_pos h]
  simp only [if_pos rfl, hpop]
  simp

theorem dealerTurnFuel_of_ge (fuel : Nat) (deck hand : List Card)
    (h : 17 ≤ compute_hand_score hand) :
    dealerTurnFuel fuel deck hand = ⟨deck, hand, [], true⟩ := by
  rw [dealerTurnFuel, if_neg (by omega)]

theorem dealerTurn_of_ge (deck hand : List Card) (h : 17 ≤ compute_hand_score hand) :
    dealerTurn deck hand = ⟨deck, hand, [], true⟩ :=
  dealerTurnFuel_of_ge deck.length deck hand h

theorem deckPop_length (deck deck' : List Card) (c : Card)
    (hpop : deckPop deck = some (c, deck')) : deck.length = deck'.length + 1 := by
  unfold deckPop at hpop
  rcases hg : deck.getLast? with _ | c0 <;> rw [hg] at hpop
  · exact absurd hpop (by simp)
  · simp only [Option.some.injEq, Prod.mk.injEq] at hpop
    rw [← hpop.2, List.length_dropLast]
    have hne : deck ≠ [] := by
      intro he
      rw [he] at hg
      simp at hg
    have := List.length_pos.mpr hne
    omega

theorem dealerTurn_draw (deck deck' hand : List Card) (c : Card)
    (h : compute_hand_score hand < 17) (hpop : deckPop deck = some (c, deck')) :
    dealerTurn deck hand =
      ⟨(dealerTurn deck' (hand ++ [c])).deck, (dealerTurn deck' (hand ++ [c])).hand,
       (RESULT_ACTIVE, c) :: (dealerTurn deck' (hand ++ [c])).sent,
       (dealerTurn deck' (hand ++ [c])).ok⟩ := by
  unfold dealerTurn
  rw [dealerTurnFuel, if_pos h]
  simp only [hpop]
  rw [deckPop_length deck deck' c hpop]

theorem dealerTurn_empty_deck (deck hand : List Card)
    (h : compute_hand_score hand < 17) (hpop : deckPop deck = none) :
    dealerTurn deck hand = ⟨deck, hand, [], false⟩ := by
  unfold dealerTurn
  rw [dealerTurnFuel, if_pos h]
  simp only [hpop]

theorem deckPop_concat (l : List Card) (c : Card) : deckPop (l ++ [c]) = some (c, l) := by
  simp [deckPop, List.getLast?_concat, List.dropLast_concat]

theorem deckPop_of_ne_nil (d : List Card) (h : d ≠ []) :
    ∃ c d', deckPop d = some (c, d') ∧ d'.length + 1 = d.length ∧ c ∈ d ∧ ∀ x ∈ d', x ∈ d := by
  rcases List.eq_nil_or_concat d with rfl | ⟨l, c, rfl⟩
  · exact absurd rfl h
  · rw [List.concat_eq_append]
    refine ⟨c, l, deckPop_concat l c, by simp, by simp, fun x hx => by simp [hx]⟩

theorem sum_cardValue_ge (l : List Card) (h : ∀ c ∈ l, 1 ≤ c.1) :
    l.length + 10 * l.countP (fun c => c.1 == 1) ≤ (l.map (fun c => cardValue c.1)).sum := by
  induction l with
  | nil => simp
  | cons c l ih =>
    rw [List.countP_cons, List.map_cons, List.sum_cons, List.length_cons]
    have ih' := ih (fun x hx => h x (by simp [hx]))
    have hc := h c (by simp)
    by_cases h1 : c.1 = 1
    · rw [if_pos (by simp [h1])]
      have hv : cardValue c.1 = 11 := by rw [cardValue, if_pos h1]
      rw [hv]
      omega
    · rw [if_neg (by simp [h1])]
      have hv : 1 ≤ cardValue c.1 := by
        rw [cardValue, if_neg h1]
        split <;> omega
      omega

theorem softAceReduce_ge (n t a : Nat) (h : n + 10 * a ≤ t) : n ≤ softAceReduce t a := by
  induction a generalizing t with
  | zero => simpa [softAceReduce] using by omega
  | succ a ih =>
    simp only [softAceReduce]
    split
    · exact ih (t - 10) (by omega)
    · omega

theorem score_ge_length (hand : List Card) (h : ∀ c ∈ hand, 1 ≤ c.1) :
    hand.length ≤ compute_hand_score hand := by
  rw [compute_hand_score_eq]
  exact softAceReduce_ge _ _ _ (sum_cardValue_ge hand h)

theorem playerTurn_spec (ds : List (Option (List Nat))) : ∀ (deck hand : List Card),
    (∀ c ∈ hand, 1 ≤ c.1) → (∀ c ∈ deck, 1 ≤ c.1) →
    21 ≤ deck.length + hand.length →
    (playerTurn deck hand ds).status ≠ PlayerStatus.deckEmpty ∧
    (playerTurn deck hand ds).deck.length + (playerTurn deck hand ds).hand.length
      = deck.length + hand.length ∧
    (∀ c ∈ (playerTurn deck hand ds).hand, 1 ≤ c.1) ∧
    (∀ c ∈ (playerTurn deck hand ds).deck, 1 ≤ c.1) ∧
    (playerTurn deck hand ds).hand.length ≤ max hand.length 21 := by
  induction ds with
  | nil =>
    intro deck hand hh hd hlen
    by_cases hs : compute_hand_score hand < 21
    · rw [playerTurn.eq_def, if_pos hs]
      exact ⟨by simp, rfl, hh, hd, by simp⟩
    · rw [playerTurn_of_ge deck hand [] (by omega)]
      exact ⟨by simp, rfl, hh, hd, by simp⟩
  | cons d rest ih =>
    intro deck hand hh hd hlen
    by_cases hs : compute_hand_score hand < 21
    · by_cases hhit : d = some hitToken
      · subst hhit
        have hhl : hand.length ≤ 20 := by
          have := score_ge_length hand hh
          omega
        have hdn : deck ≠ [] := by
          intro he
          rw [he] at hlen
          simp at hlen
          omega
        obtain ⟨c, deck', hpop, hlen', hcmem, hsub⟩ := deckPop_of_ne_nil deck hdn
        have hh' : ∀ x ∈ hand ++ [c], 1 ≤ x.1 := by
          intro x hx
          rcases List.mem_append.mp hx with hx | hx
          · exact hh x hx
          · simp at hx
            rw [hx]
            exact hd c hcmem
        have hd' : ∀ x ∈ deck', 1 ≤ x.1 := fun x hx => hd x (hsub x hx)
        by_cases hb : 21 < compute_hand_score (hand ++ [c])
        · rw [playerTurn_hit_bust deck deck' hand rest c hs hpop hb]
          refine ⟨by simp, ?_, hh', hd', ?_⟩
          · simp
            omega
          · simp
            omega
        · rw [playerTurn_hit_ok deck deck' hand rest c hs hpop (by omega)]
          have ihr := ih deck' (hand ++ [c]) hh' hd' (by simp; omega)
          refine ⟨ihr.1, ?_, ihr.2.2.1, ihr.2.2.2.1, ?_⟩
          · have := ihr.2.1
            simp at this ⊢
            omega
          · have := ihr.2.2.2.2
            simp at this ⊢
            omega
      · rw [playerTurn_stand deck hand rest d hs hhit]
        exact ⟨by simp, rfl, hh, hd, by simp⟩
    · rw [playerTurn_of_ge deck hand _ (by omega)]
      exact ⟨by simp, rfl, hh, hd, by simp⟩

theorem playerTurn_busted (ds : List (Option (List Nat))) : ∀ (deck hand : List Card),
    (playerTurn deck hand ds).status = PlayerStatus.busted →
    ∃ c, (playerTurn deck hand ds).sent.getLast? = some (RESULT_LOSS, c) ∧
      (playerTurn deck hand ds).hand.getLast? = some c ∧
      21 < compute_hand_score (playerTurn deck hand ds).hand := by
  induction ds with
  | nil =>
    intro deck hand h
    by_cases hs : compute_hand_score hand < 21
    · rw [playerTurn.eq_def, if_pos hs] at h
      simp at h
    · rw [playerTurn_of_ge deck hand [] (by omega)] at h
      simp at h
  | cons d rest ih =>
    intro deck hand h
    by_cases hs : compute_hand_score hand < 21
    · by_cases hhit : d = some hitToken
      · subst hhit
        rcases hpop : deckPop deck with _ | ⟨c, deck'⟩
        · rw [playerTurn_empty_deck deck hand rest hs hpop] at h
          simp at h
        · by_cases hb : 21 < compute_hand_score (hand ++ [c])
          · rw [playerTurn_hit_bust deck deck' hand rest c hs hpop hb]
            refine ⟨c, by simp, by simp [List.getLast?_concat], by simpa using hb⟩
          · rw [playerTurn_hit_ok deck deck' hand rest c hs hpop (by omega)] at h ⊢
            simp only at h
            obtain ⟨c0, hsent, hhand, hscore⟩ := ih deck' (hand ++ [c]) h
            refine ⟨c0, ?_, by simpa using hhand, by simpa using hscore⟩
            simp only [List.getLast?_cons, hsent]
            simp [hsent]
      · rw [playerTurn_stand deck hand rest d hs hhit] at h
        simp at h
    · rw [playerTurn_of_ge deck hand _ (by omega)] at h
      simp at h

theorem dealerTurn_spec_aux : ∀ (n : Nat) (deck hand : List Card), deck.length ≤ n →
    (∀ c ∈ hand, 1 ≤ c.1) → (∀ c ∈ deck, 1 ≤ c.1) →
    17 ≤ deck.length + hand.length →
    (dealerTurn deck hand).ok = true ∧
    (∃ ext, (dealerTurn deck hand).hand = hand ++ ext) := by
  intro n
  induction n with
  | zero =>
    intro deck hand hle hh hd hlen
    have hnil : deck = [] := List.length_eq_zero.mp (by omega)
    subst hnil
    simp at hlen
    have hs : 17 ≤ compute_hand_score hand := le_trans hlen (score_ge_length hand hh)
    rw [dealerTurn_of_ge [] hand hs]
    exact ⟨rfl, [], by simp⟩
  | succ n ih =>
    intro deck hand hle hh hd hlen
    by_cases hs : compute_hand_score hand < 17
    · have hdn : deck ≠ [] := by
        intro he
        rw [he] at hlen
        simp at hlen
        have := score_ge_length hand hh
        omega
      obtain ⟨c, deck', hpop, hlen', hcmem, hsub⟩ := deckPop_of_ne_nil deck hdn
      have hh' : ∀ x ∈ hand ++ [c], 1 ≤ x.1 := by
        intro x hx
        rcases List.mem_append.mp hx with hx | hx
        · exact hh x hx
        · simp at hx
          rw [hx]
          exact hd c hcmem
      have hd' : ∀ x ∈ deck', 1 ≤ x.1 := fun x hx => hd x (hsub x hx)
      have hhl : hand.length ≤ 16 := by
        have := score_ge_length hand hh
        omega
      obtain ⟨hok, ext, hext⟩ :=
        ih deck' (hand ++ [c]) (by omega) hh' hd' (by simp; omega)
      rw [dealerTurn_draw deck deck' hand c hs hpop]
      refine ⟨by simpa using hok, c :: ext, ?_⟩
      simp only
      rw [hext]
      simp
    · rw [dealerTurn_of_ge deck hand (by omega)]
      exact ⟨rfl, [], by simp⟩

theorem dealerTurn_sent_active_aux : ∀ (n : Nat) (deck hand : List Card), deck.length ≤ n →
    ∀ p ∈ (dealerTurn deck hand).sent, p.1 = RESULT_ACTIVE := by
  intro n
  induction n with
  | zero =>
    intro deck hand hle p hp
    have hnil : deck = [] := List.length_eq_zero.mp (by omega)
    subst hnil
    by_cases hs : compute_hand_score hand < 17
    · rw [dealerTurn_empty_deck [] hand hs rfl] at hp
      simp at hp
    · rw [dealerTurn_of_ge [] hand (by omega)] at hp
      simp at hp
  | succ n ih =>
    intro deck hand hle p hp
    by_cases hs : compute_hand_score hand < 17
    · rcases hpop : deckPop deck with _ | ⟨c, deck'⟩
      · rw [dealerTurn_empty_deck deck hand hs hpop] at hp
        simp at hp
      · rw [dealerTurn_draw deck deck' hand c hs hpop] at hp
        simp only at hp
        rcases List.mem_cons.mp hp with rfl | hp'
        · rfl
        · have hlen' : deck'.length ≤ n := by
            have : deck ≠ [] := by
              intro he
              rw [he] at hpop
              simp [deckPop] at hpop
            obtain ⟨c2, d2, hp2, hl2, _, _⟩ := deckPop_of_ne_nil deck this
            rw [hpop] at hp2
            simp only [Option.some.injEq, Prod.mk.injEq] at hp2
            obtain ⟨h1, h2⟩ := hp2
            subst h2
            omega
          exact ih deck' (hand ++ [c]) hlen' p hp'
    · rw [dealerTurn_of_ge deck hand (by omega)] at hp
      simp at hp

theorem dealerTurn_sent_active (deck hand : List Card) :
    ∀ p ∈ (dealerTurn deck hand).sent, p.1 = RESULT_ACTIVE :=
  dealerTurn_sent_active_aux deck.length deck hand le_rfl

theorem dealerTurn_spec (deck hand : List Card)
    (hh : ∀ c ∈ hand, 1 ≤ c.1) (hd : ∀ c ∈ deck, 1 ≤ c.1)
    (hlen : 17 ≤ deck.length + hand.length) :
    (dealerTurn deck hand).ok = true ∧
    (∃ ext, (dealerTurn deck hand).hand = hand ++ ext) :=
  dealerTurn_spec_aux deck.length deck hand le_rfl hh hd hlen

theorem run_pop1_fail (deck : List Card) (ds : List (Option (List Nat)))
    (h1 : deckPop deck = none) :
    run_single_round deck ds = ⟨[], [], [], .deckError⟩ := by
  simp only [run_single_round, h1]

theorem run_pop2_fail (deck : List Card) (ds : List (Option (List Nat)))
    {p1 : Card} {d1 : List Card}
    (h1 : deckPop deck = some (p1, d1)) (h2 : deckPop d1 = none) :
    run_single_round deck ds = ⟨[], [p1], [], .deckError⟩ := by
  simp only [run_single_round, h1, h2]

theorem run_pop3_fail (deck : List Card) (ds : List (Option (List Nat)))
    {p1 p2 : Card} {d1 d2 : List Card}
    (h1 : deckPop deck = some (p1, d1)) (h2 : deckPop d1 = some (p2, d2))
    (h3 : deckPop d2 = none) :
    run_single_round deck ds = ⟨[], [p1, p2], [], .deckError⟩ := by
  simp only [run_single_round, h1, h2, h3]

theorem run_pop4_fail (deck : List Card) (ds : List (Option (List Nat)))
    {p1 p2 q1 : Card} {d1 d2 d3 : List Card}
    (h1 : deckPop deck = some (p1, d1)) (h2 : deckPop d1 = some (p2, d2))
    (h3 : deckPop d2 = some (q1, d3)) (h4 : deckPop d3 = none) :
    run_single_round deck ds = ⟨[], [p1, p2], [q1], .deckError⟩ := by
  simp only [run_single_round, h1, h2, h3, h4]

theorem run_aborted (deck : List Card) (ds : List (Option (List Nat)))
    {p1 p2 q1 q2 : Card} {d1 d2 d3 d4 : List Card}
    (h1 : deckPop deck = some (p1, d1)) (h2 : deckPop d1 = some (p2, d2))
    (h3 : deckPop d2 = some (q1, d3)) (h4 : deckPop d3 = some (q2, d4))
    (hst : (playerTurn d4 [p1, p2] ds).status = PlayerStatus.aborted) :
    run_single_round deck ds =
      ⟨[(RESULT_ACTIVE, p1), (RESULT_ACTIVE, p2), (RESULT_ACTIVE, q1)]
         ++ (playerTurn d4 [p1, p2] ds).sent,
       (playerTurn d4 [p1, p2] ds).hand, [q1, q2], .aborted⟩ := by
  simp only [run_single_round, h1, h2, h3, h4, hst]

theorem run_deckEmpty (deck : List Card) (ds : List (Option (List Nat)))
    {p1 p2 q1 q2 : Card} {d1 d2 d3 d4 : List Card}
    (h1 : deckPop deck = some (p1, d1)) (h2 : deckPop d1 = some (p2, d2))
    (h3 : deckPop d2 = some (q1, d3)) (h4 : deckPop d3 = some (q2, d4))
    (hst : (playerTurn d4 [p1, p2] ds).status = PlayerStatus.deckEmpty) :
    run_single_round deck ds =
      ⟨[(RESULT_ACTIVE, p1), (RESULT_ACTIVE, p2), (RESULT_ACTIVE, q1)]
         ++ (playerTurn d4 [p1, p2] ds).sent,
       (playerTurn d4 [p1, p2] ds).hand, [q1, q2], .deckError⟩ := by
  simp only [run_single_round, h1, h2, h3, h4, hst]

theorem run_busted (deck : List Card) (ds : List (Option (List Nat)))
    {p1 p2 q1 q2 : Card} {d1 d2 d3 d4 : List Card}
    (h1 : deckPop deck = some (p1, d1)) (h2 : deckPop d1 = some (p2, d2))
    (h3 : deckPop d2 = some (q1, d3)) (h4 : deckPop d3 = some (q2, d4))
    (hst : (playerTurn d4 [p1, p2] ds).status = PlayerStatus.busted) :
    run_single_round deck ds =
      ⟨[(RESULT_ACTIVE, p1), (RESULT_ACTIVE, p2), (RESULT_ACTIVE, q1)]
         ++ (playerTurn d4 [p1, p2] ds).sent,
       (playerTurn d4 [p1, p2] ds).hand, [q1, q2], .bustLoss⟩ := by
  simp only [run_single_round, h1, h2, h3, h4, hst]

theorem run_stood (deck : List Card) (ds : List (Option (List Nat)))
    {p1 p2 q1 q2 : Card} {d1 d2 d3 d4 : List Card}
    (h1 : deckPop deck = some (p1, d1)) (h2 : deckPop d1 = some (p2, d2))
    (h3 : deckPop d2 = some (q1, d3)) (h4 : deckPop d3 = some (q2, d4))
    (hst : (playerTurn d4 [p1, p2] ds).status = PlayerStatus.stood)
    (hok : (dealerTurn (playerTurn d4 [p1, p2] ds).deck [q1, q2]).ok = true) :
    run_single_round deck ds =
      ⟨[(RESULT_ACTIVE, p1), (RESULT_ACTIVE, p2), (RESULT_ACTIVE, q1)]
         ++ (playerTurn d4 [p1, p2] ds).sent ++ [(RESULT_ACTIVE, q2)]
         ++ (dealerTurn (playerTurn d4 [p1, p2] ds).deck [q1, q2]).sent
         ++ [(resolveResult (compute_hand_score (playerTurn d4 [p1, p2] ds).hand)
               (compute_hand_score (dealerTurn (playerTurn d4 [p1, p2] ds).deck [q1, q2]).hand),
              (0, 0))],
       (playerTurn d4 [p1, p2] ds).hand,
       (dealerTurn (playerTurn d4 [p1, p2] ds).deck [q1, q2]).hand,
       .resolved (resolveResult (compute_hand_score (playerTurn d4 [p1, p2] ds).hand)
         (compute_hand_score (dealerTurn (playerTurn d4 [p1, p2] ds).deck [q1, q2]).hand))⟩ := by
  simp only [run_single_round, h1, h2, h3, h4, hst, hok, if_true]

theorem run_stood_fail (deck : List Card) (ds : List (Option (List Nat)))
    {p1 p2 q1 q2 : Card} {d1 d2 d3 d4 : List Card}
    (h1 : deckPop deck = some (p1, d1)) (h2 : deckPop d1 = some (p2, d2))
    (h3 : deckPop d2 = some (q1, d3)) (h4 : deckPop d3 = some (q2, d4))
    (hst : (playerTurn d4 [p1, p2] ds).status = PlayerStatus.stood)
    (hok : (dealerTurn (playerTurn d4 [p1, p2] ds).deck [q1, q2]).ok = false) :
    run_single_round deck ds =
      ⟨[(RESULT_ACTIVE, p1), (RESULT_ACTIVE, p2), (RESULT_ACTIVE, q1)]
         ++ (playerTurn d4 [p1, p2] ds).sent ++ [(RESULT_ACTIVE, q2)]
         ++ (dealerTurn (playerTurn d4 [p1, p2] ds).deck [q1, q2]).sent,
       (playerTurn d4 [p1, p2] ds).hand,
       (dealerTurn (playerTurn d4 [p1, p2] ds).deck [q1, q2]).hand,
       .deckError⟩ := by
  simp only [run_single_round, h1, h2, h3, h4, hst, hok]
  simp

theorem freshDeck_length : freshDeck.length = 52 := by decide

theorem freshDeck_ranks : ∀ c ∈ freshDeck, 1 ≤ c.1 := by decide

/-- C2 (counterexample): drawing from an empty deck does not refill and
reshuffle — `deck.pop()` on an empty list raises `IndexError`, modelled as
`none`; there is no refill code anywhere in server.py. -/
theorem C2_draw_counterexample : deckPop ([] : List Card) = none := rfl

/-- C2 (amended): the deck's draw operation is Python `deck.pop()`: on a
nonempty deck it removes and returns the last card; on an empty deck it
fails (IndexError) — there is no refill-on-empty.  Instead,
`run_single_round` builds a fresh shuffled 52-card deck at the start of
every round, and within one round the deck can never be exhausted (the
player loop stops before 21 cards and the dealer loop before 17), so every
draw the round actually performs succeeds. -/
theorem C2_draw (deck : List Card) (ds : List (Option (List Nat)))
    (hperm : freshDeck.Perm deck) :
    (∀ (l : List Card) (c : Card), deckPop (l ++ [c]) = some (c, l)) ∧
    deckPop ([] : List Card) = none ∧
    (run_single_round deck ds).outcome ≠ RoundOutcome.deckError := by
  refine ⟨deckPop_concat, rfl, ?_⟩
  have hlen52 : deck.length = 52 := by
    rw [← hperm.length_eq, freshDeck_length]
  have hranks : ∀ c ∈ deck, 1 ≤ c.1 := fun c hc => freshDeck_ranks c (hperm.mem_iff.mpr hc)
  obtain ⟨p1, d1, hp1, hl1, hm1, hs1⟩ :=
    deckPop_of_ne_nil deck (by intro h; rw [h] at hlen52; simp at hlen52)
  have hld1 : d1.length = 51 := by omega
  obtain ⟨p2, d2, hp2, hl2, hm2, hs2⟩ :=
    deckPop_of_ne_nil d1 (by intro h; rw [h] at hld1; simp at hld1)
  have hld2 : d2.length = 50 := by omega
  obtain ⟨q1, d3, hp3, hl3, hm3, hs3⟩ :=
    deckPop_of_ne_nil d2 (by intro h; rw [h] at hld2; simp at hld2)
  have hld3 : d3.length = 49 := by omega
  obtain ⟨q2, d4, hp4, hl4, hm4, hs4⟩ :=
    deckPop_of_ne_nil d3 (by intro h; rw [h] at hld3; simp at hld3)
  have hld4 : d4.length = 48 := by omega
  have hr1 : ∀ c ∈ d1, 1 ≤ c.1 := fun c hc => hranks c (hs1 c hc)
  have hr2 : ∀ c ∈ d2, 1 ≤ c.1 := fun c hc => hr1 c (hs2 c hc)
  have hr3 : ∀ c ∈ d3, 1 ≤ c.1 := fun c hc => hr2 c (hs3 c hc)
  have hr4 : ∀ c ∈ d4, 1 ≤ c.1 := fun c hc => hr3 c (hs4 c hc)
  have hhand2 : ∀ c ∈ [p1, p2], 1 ≤ c.1 := by
    intro c hc
    simp at hc
    rcases hc with rfl | rfl
    · exact hranks _ hm1
    · exact hr1 _ hm2
  have hdhand2 : ∀ c ∈ [q1, q2], 1 ≤ c.1 := by
    intro c hc
    simp at hc
    rcases hc with rfl | rfl
    · exact hr2 _ hm3
    · exact hr3 _ hm4
  have hps := playerTurn_spec ds d4 [p1, p2] hhand2 hr4 (by simp [hld4])
  rcases hst : (playerTurn d4 [p1, p2] ds).status
  case stood =>
    have hsum : (playerTurn d4 [p1, p2] ds).deck.length
        + (playerTurn d4 [p1, p2] ds).hand.length = 50 := by
      have := hps.2.1
      simp [hld4] at this
      omega
    have hhand_le : (playerTurn d4 [p1, p2] ds).hand.length ≤ 21 := by
      have := hps.2.2.2.2
      simp at this
      omega
    have hds := dealerTurn_spec (playerTurn d4 [p1, p2] ds).deck [q1, q2]
      hdhand2 hps.2.2.2.1 (by simp; omega)
    rw [run_stood deck ds hp1 hp2 hp3 hp4 hst hds.1]
    simp
  case busted =>
    rw [run_busted deck ds hp1 hp2 hp3 hp4 hst]
    simp
  case aborted =>
    rw [run_aborted deck ds hp1 hp2 hp3 hp4 hst]
    simp
  case deckEmpty =>
    exact absurd hst hps.1

/-- C2 (witness): on the unshuffled fresh deck with no readable decision the
round runs (player is dealt kings, `recv` fails, round aborts) without any
draw ever hitting an empty deck. -/
theorem C2_draw_witness :
    (run_single_round freshDeck []).outcome ≠ RoundOutcome.deckError :=
  (C2_draw freshDeck [] (List.Perm.refl _)).2.2


theorem dealerTurn_hand_ext_aux : ∀ (n : Nat) (deck hand : List Card), deck.length ≤ n →
    ∃ ext, (dealerTurn deck hand).hand = hand ++ ext := by
  intro n
  induction n with
  | zero =>
    intro deck hand hle
    have hnil : deck = [] := List.length_eq_zero.mp (by omega)
    subst hnil
    by_cases hs : compute_hand_score hand < 17
    · rw [dealerTurn_empty_deck [] hand hs rfl]
      exact ⟨[], by simp⟩
    · rw [dealerTurn_of_ge [] hand (by omega)]
      exact ⟨[], by simp⟩
  | succ n ih =>
    intro deck hand hle
    by_cases hs : compute_hand_score hand < 17
    · rcases hpop : deckPop deck with _ | ⟨c, deck'⟩
      · rw [dealerTurn_empty_deck deck hand hs hpop]
        exact ⟨[], by simp⟩
      · rw [dealerTurn_draw deck deck' hand c hs hpop]
        have hlen := deckPop_length deck deck' c hpop
        obtain ⟨ext, hext⟩ := ih deck' (hand ++ [c]) (by omega)
        refine ⟨c :: ext, ?_⟩
        simp only
        rw [hext]
        simp
    · rw [dealerTurn_of_ge deck hand (by omega)]
      exact ⟨[], by simp⟩

theorem dealerTurn_hand_ext (deck hand : List Card) :
    ∃ ext, (dealerTurn deck hand).hand = hand ++ ext :=
  dealerTurn_hand_ext_aux deck.length deck hand le_rfl

/-- C4: at resolution, for all final (player, dealer) value pairs: player
bust gives LOSS; otherwise dealer bust gives WIN; otherwise the higher value
wins and equal values tie.  A resolved round's final ServerPayload carries
exactly this result code with the sentinel card (0, 0) as the last message,
and it compares the final hand scores; in the player-bust path the last
message instead carries the busting card (the player hand's last card)
together with the LOSS code, and nothing follows it. -/
theorem C4_resolution (deck : List Card) (ds : List (Option (List Nat))) :
    (∀ ps dsc : Nat,
      (21 < ps → resolveResult ps dsc = RESULT_LOSS) ∧
      (ps ≤ 21 → 21 < dsc → resolveResult ps dsc = RESULT_WIN) ∧
      (ps ≤ 21 → dsc ≤ 21 → dsc < ps → resolveResult ps dsc = RESULT_WIN) ∧
      (ps ≤ 21 → dsc ≤ 21 → ps < dsc → resolveResult ps dsc = RESULT_LOSS) ∧
      (ps ≤ 21 → dsc ≤ 21 → ps = dsc → resolveResult ps dsc = RESULT_TIE)) ∧
    (∀ r, (run_single_round deck ds).outcome = RoundOutcome.resolved r →
      r = resolveResult (compute_hand_score (run_single_round deck ds).playerHand)
            (compute_hand_score (run_single_round deck ds).dealerHand) ∧
      (run_single_round deck ds).sent.getLast? = some (r, ((0 : Nat), (0 : Nat)))) ∧
    ((run_single_round deck ds).outcome = RoundOutcome.bustLoss →
      ∃ c, (run_single_round deck ds).sent.getLast? = some (RESULT_LOSS, c) ∧
        (run_single_round deck ds).playerHand.getLast? = some c ∧
        21 < compute_hand_score (run_single_round deck ds).playerHand) := by
  refine ⟨?_, ?_⟩
  · intro ps dsc
    refine ⟨?_, ?_, ?_, ?_, ?_⟩ <;> intros <;> unfold resolveResult <;>
      split_ifs <;> first | rfl | omega
  · rcases hp1 : deckPop deck with _ | ⟨p1, d1⟩
    · rw [run_pop1_fail deck ds hp1]
      exact ⟨fun r hr => absurd hr (by simp), fun hb => absurd hb (by simp)⟩
    rcases hp2 : deckPop d1 with _ | ⟨p2, d2⟩
    · rw [run_pop2_fail deck ds hp1 hp2]
      exact ⟨fun r hr => absurd hr (by simp), fun hb => absurd hb (by simp)⟩
    rcases hp3 : deckPop d2 with _ | ⟨q1, d3⟩
    · rw [run_pop3_fail deck ds hp1 hp2 hp3]
      exact ⟨fun r hr => absurd hr (by simp), fun hb => absurd hb (by simp)⟩
    rcases hp4 : deckPop d3 with _ | ⟨q2, d4⟩
    · rw [run_pop4_fail deck ds hp1 hp2 hp3 hp4]
      exact ⟨fun r hr => absurd hr (by simp), fun hb => absurd hb (by simp)⟩
    rcases hst : (playerTurn d4 [p1, p2] ds).status
    case stood =>
      rcases hok : (dealerTurn (playerTurn d4 [p1, p2] ds).deck [q1, q2]).ok
      case false =>
        rw [run_stood_fail deck ds hp1 hp2 hp3 hp4 hst hok]
        exact ⟨fun r hr => absurd hr (by simp), fun hb => absurd hb (by simp)⟩
      case true =>
        rw [run_stood deck ds hp1 hp2 hp3 hp4 hst hok]
        constructor
        · intro r hr
          simp only at hr
          rw [RoundOutcome.resolved.injEq] at hr
          subst hr
          refine ⟨rfl, ?_⟩
          simp [List.getLast?_cons, List.getLast?_append]
        · intro hb
          exact absurd hb (by simp)
    case busted =>
      rw [run_busted deck ds hp1 hp2 hp3 hp4 hst]
      constructor
      · intro r hr
        exact absurd hr (by simp)
      · intro hb
        obtain ⟨c, hsent, hhand, hscore⟩ := playerTurn_busted ds d4 [p1, p2] hst
        refine ⟨c, ?_, by simpa using hhand, by simpa using hscore⟩
        simp [List.getLast?_cons, List.getLast?_append, hsent]
    case aborted =>
      rw [run_aborted deck ds hp1 hp2 hp3 hp4 hst]
      exact ⟨fun r hr => absurd hr (by simp), fun hb => absurd hb (by simp)⟩
    case deckEmpty =>
      rw [run_deckEmpty deck ds hp1 hp2 hp3 hp4 hst]
      exact ⟨fun r hr => absurd hr (by simp), fun hb => absurd hb (by simp)⟩

/-- C4 (witness): the table at (22, 18), and the final sentinel TIE payload
of a concrete resolved round (unshuffled deck, player stands on a rejected
decision, both sides hold 20). -/
theorem C4_resolution_witness :
    resolveResult 22 18 = RESULT_LOSS ∧
    (run_single_round freshDeck [none]).sent.getLast? =
      some (RESULT_TIE, ((0 : Nat), (0 : Nat))) := by
  constructor
  · exact ((C4_resolution freshDeck [none]).1 22 18).1 (by omega)
  · exact ((C4_resolution freshDeck [none]).2.1 RESULT_TIE (by decide)).2

/-- C6: the player-turn loop: at a score of 21 or more it exits with no
decision consumed; below 21 a decoded decision equal to the hit token draws
the top card, appends it to the hand, and sends it with RESULT_ACTIVE when
the new score is at most 21 or with RESULT_LOSS when it exceeds 21 — and in
the latter case the round ends at once with no dealer play (the dealer hand
stays at its two dealt cards); any other decoded decision, including a
rejected (None) payload, is treated as stand and exits the loop. -/
theorem C6_player_turn (deck hand : List Card) (ds rest : List (Option (List Nat)))
    (d : Option (List Nat)) (c : Card) (deck' : List Card) :
    (21 ≤ compute_hand_score hand →
      playerTurn deck hand ds = ⟨deck, hand, [], PlayerStatus.stood⟩) ∧
    (compute_hand_score hand < 21 → d ≠ some hitToken →
      playerTurn deck hand (d :: rest) = ⟨deck, hand, [], PlayerStatus.stood⟩) ∧
    (compute_hand_score hand < 21 → deckPop deck = some (c, deck') →
      (21 < compute_hand_score (hand ++ [c]) →
        playerTurn deck hand (some hitToken :: rest) =
          ⟨deck', hand ++ [c], [(RESULT_LOSS, c)], PlayerStatus.busted⟩) ∧
      (compute_hand_score (hand ++ [c]) ≤ 21 →
        playerTurn deck hand (some hitToken :: rest) =
          ⟨(playerTurn deck' (hand ++ [c]) rest).deck,
           (playerTurn deck' (hand ++ [c]) rest).hand,
           (RESULT_ACTIVE, c) :: (playerTurn deck' (hand ++ [c]) rest).sent,
           (playerTurn deck' (hand ++ [c]) rest).status⟩)) ∧
    ((run_single_round deck ds).outcome = RoundOutcome.bustLoss →
      (run_single_round deck ds).dealerHand.length = 2) := by
  refine ⟨playerTurn_of_ge deck hand ds,
          fun h hd => playerTurn_stand deck hand rest d h hd,
          fun h hpop => ⟨fun hb => playerTurn_hit_bust deck deck' hand rest c h hpop hb,
                         fun hok => playerTurn_hit_ok deck deck' hand rest c h hpop hok⟩,
          ?_⟩
  rcases hp1 : deckPop deck with _ | ⟨p1, d1⟩
  · rw [run_pop1_fail deck ds hp1]
    exact fun hb => absurd hb (by simp)
  rcases hp2 : deckPop d1 with _ | ⟨p2, d2⟩
  · rw [run_pop2_fail deck ds hp1 hp2]
    exact fun hb => absurd hb (by simp)
  rcases hp3 : deckPop d2 with _ | ⟨q1, d3⟩
  · rw [run_pop3_fail deck ds hp1 hp2 hp3]
    exact fun hb => absurd hb (by simp)
  rcases hp4 : deckPop d3 with _ | ⟨q2, d4⟩
  · rw [run_pop4_fail deck ds hp1 hp2 hp3 hp4]
    exact fun hb => absurd hb (by simp)
  rcases hst : (playerTurn d4 [p1, p2] ds).status
  case stood =>
    rcases hok : (dealerTurn (playerTurn d4 [p1, p2] ds).deck [q1, q2]).ok
    case false =>
      rw [run_stood_fail deck ds hp1 hp2 hp3 hp4 hst hok]
      exact fun hb => absurd hb (by simp)
    case true =>
      rw [run_stood deck ds hp1 hp2 hp3 hp4 hst hok]
      exact fun hb => absurd hb (by simp)
  case busted =>
    rw [run_busted deck ds hp1 hp2 hp3 hp4 hst]
    intro hb
    simp
  case aborted =>
    rw [run_aborted deck ds hp1 hp2 hp3 hp4 hst]
    exact fun hb => absurd hb (by simp)
  case deckEmpty =>
    rw [run_deckEmpty deck ds hp1 hp2 hp3 hp4 hst]
    exact fun hb => absurd hb (by simp)

/-- C6 (witness): hitting at 20 with a queen on top busts and yields the
LOSS message with that card; a full round started with one hit on the
unshuffled deck ends with the dealer still holding two cards. -/
theorem C6_player_turn_witness :
    playerTurn [(12, 3)] [(13, 3), (13, 2)] [some hitToken] =
      ⟨[], [(13, 3), (13, 2), (12, 3)], [(RESULT_LOSS, (12, 3))], PlayerStatus.busted⟩ ∧
    (run_single_round freshDeck [some hitToken]).dealerHand.length = 2 := by
  constructor
  · exact ((C6_player_turn [(12, 3)] [(13, 3), (13, 2)] [] [] (some hitToken)
      (12, 3) []).2.2.1 (by decide) (by decide)).1 (by decide)
  · exact (C6_player_turn freshDeck [] [some hitToken] [] none (0, 0) []).2.2.2 (by decide)

/-- C7: the dealer turn: at 17 or more it draws nothing; below 17 it pops
the top card, appends it and sends it as RESULT_ACTIVE unconditionally —
also when the draw pushes the dealer over 21 (the equation carries no bound
on the new score, and every message the loop sends has code RESULT_ACTIVE);
it runs only when the player did not bust (a bust keeps the dealer hand at
two cards), and in a resolved round the dealer's hidden second card is sent
as RESULT_ACTIVE followed only by RESULT_ACTIVE dealer draws before the
final result payload. -/
theorem C7_dealer_turn (deck hand : List Card) (ds : List (Option (List Nat)))
    (c : Card) (deck' : List Card) :
    (17 ≤ compute_hand_score hand → dealerTurn deck hand = ⟨deck, hand, [], true⟩) ∧
    (compute_hand_score hand < 17 → deckPop deck = some (c, deck') →
      dealerTurn deck hand =
        ⟨(dealerTurn deck' (hand ++ [c])).deck, (dealerTurn deck' (hand ++ [c])).hand,
         (RESULT_ACTIVE, c) :: (dealerTurn deck' (hand ++ [c])).sent,
         (dealerTurn deck' (hand ++ [c])).ok⟩) ∧
    (∀ p ∈ (dealerTurn deck hand).sent, p.1 = RESULT_ACTIVE) ∧
    ((run_single_round deck ds).outcome = RoundOutcome.bustLoss →
      (run_single_round deck ds).dealerHand.length = 2) ∧
    (∀ r, (run_single_round deck ds).outcome = RoundOutcome.resolved r →
      ∃ l1 l2 q2c, (run_single_round deck ds).sent
          = l1 ++ (RESULT_ACTIVE, q2c) :: (l2 ++ [(r, ((0 : Nat), (0 : Nat)))]) ∧
        (run_single_round deck ds).dealerHand.get? 1 = some q2c ∧
        (∀ p ∈ l2, p.1 = RESULT_ACTIVE)) := by
  refine ⟨dealerTurn_of_ge deck hand,
          fun h hpop => dealerTurn_draw deck deck' hand c h hpop,
          dealerTurn_sent_active deck hand, ?_, ?_⟩
  · rcases hp1 : deckPop deck with _ | ⟨p1, d1⟩
    · rw [run_pop1_fail deck ds hp1]
      exact fun hb => absurd hb (by simp)
    rcases hp2 : deckPop d1 with _ | ⟨p2, d2⟩
    · rw [run_pop2_fail deck ds hp1 hp2]
      exact fun hb => absurd hb (by simp)
    rcases hp3 : deckPop d2 with _ | ⟨q1, d3⟩
    · rw [run_pop3_fail deck ds hp1 hp2 hp3]
      exact fun hb => absurd hb (by simp)
    rcases hp4 : deckPop d3 with _ | ⟨q2, d4⟩
    · rw [run_pop4_fail deck ds hp1 hp2 hp3 hp4]
      exact fun hb => absurd hb (by simp)
    rcases hst : (playerTurn d4 [p1, p2] ds).status
    case stood =>
      rcases hok : (dealerTurn (playerTurn d4 [p1, p2] ds).deck [q1, q2]).ok
      case false =>
        rw [run_stood_fail deck ds hp1 hp2 hp3 hp4 hst hok]
        exact fun hb => absurd hb (by simp)
      case true =>
        rw [run_stood deck ds hp1 hp2 hp3 hp4 hst hok]
        exact fun hb => absurd hb (by simp)
    case busted =>
      rw [run_busted deck ds hp1 hp2 hp3 hp4 hst]
      intro hb
      simp
    case aborted =>
      rw [run_aborted deck ds hp1 hp2 hp3 hp4 hst]
      exact fun hb => absurd hb (by simp)
    case deckEmpty =>
      rw [run_deckEmpty deck ds hp1 hp2 hp3 hp4 hst]
      exact fun hb => absurd hb (by simp)
  · rcases hp1 : deckPop deck with _ | ⟨p1, d1⟩
    · rw [run_pop1_fail deck ds hp1]
      exact fun r hr => absurd hr (by simp)
    rcases hp2 : deckPop d1 with _ | ⟨p2, d2⟩
    · rw [run_pop2_fail deck ds hp1 hp2]
      exact fun r hr => absurd hr (by simp)
    rcases hp3 : deckPop d2 with _ | ⟨q1, d3⟩
    · rw [run_pop3_fail deck ds hp1 hp2 hp3]
      exact fun r hr => absurd hr (by simp)
    rcases hp4 : deckPop d3 with _ | ⟨q2, d4⟩
    · rw [run_pop4_fail deck ds hp1 hp2 hp3 hp4]
      exact fun r hr => absurd hr (by simp)
    rcases hst : (playerTurn d4 [p1, p2] ds).status
    case stood =>
      rcases hok : (dealerTurn (playerTurn d4 [p1, p2] ds).deck [q1, q2]).ok
      case false =>
        rw [run_stood_fail deck ds hp1 hp2 hp3 hp4 hst hok]
        exact fun r hr => absurd hr (by simp)
      case true =>
        rw [run_stood deck ds hp1 hp2 hp3 hp4 hst hok]
        intro r hr
        simp only at hr
        rw [RoundOutcome.resolved.injEq] at hr
        subst hr
        refine ⟨[(RESULT_ACTIVE, p1), (RESULT_ACTIVE, p2), (RESULT_ACTIVE, q1)]
            ++ (playerTurn d4 [p1, p2] ds).sent,
          (dealerTurn (playerTurn d4 [p1, p2] ds).deck [q1, q2]).sent, q2, ?_, ?_, ?_⟩
        · simp [List.append_assoc]
        · obtain ⟨ext, hext⟩ :=
            dealerTurn_hand_ext (playerTurn d4 [p1, p2] ds).deck [q1, q2]
          simp only [hext]
          rw [List.get?_append (by simp)]
          rfl
        · exact dealerTurn_sent_active (playerTurn d4 [p1, p2] ds).deck [q1, q2]
    case busted =>
      rw [run_busted deck ds hp1 hp2 hp3 hp4 hst]
      exact fun r hr => absurd hr (by simp)
    case aborted =>
      rw [run_aborted deck ds hp1 hp2 hp3 hp4 hst]
      exact fun r hr => absurd hr (by simp)
    case deckEmpty =>
      rw [run_deckEmpty deck ds hp1 hp2 hp3 hp4 hst]
      exact fun r hr => absurd hr (by simp)

/-- C7 (witness): a dealer at 20 stands; a dealer at 16 draws a 5 and sends
it as RESULT_ACTIVE; a concrete resolved round shows the reveal-then-draws
message shape. -/
theorem C7_dealer_turn_witness :
    dealerTurn [] [(13, 0), (10, 1)] = ⟨[], [(13, 0), (10, 1)], [], true⟩ ∧
    dealerTurn [(5, 0)] [(10, 0), (6, 1)] =
      ⟨[], [(10, 0), (6, 1), (5, 0)], [(RESULT_ACTIVE, (5, 0))], true⟩ ∧
    (∃ l1 l2 q2c, (run_single_round freshDeck [none]).sent
        = l1 ++ (RESULT_ACTIVE, q2c) :: (l2 ++ [(RESULT_TIE, ((0 : Nat), (0 : Nat)))]) ∧
      (run_single_round freshDeck [none]).dealerHand.get? 1 = some q2c ∧
      (∀ p ∈ l2, p.1 = RESULT_ACTIVE)) := by
  refine ⟨?_, ?_, ?_⟩
  · exact (C7_dealer_turn [] [(13, 0), (10, 1)] [] (0, 0) []).1 (by decide)
  · exact ((C7_dealer_turn [(5, 0)] [(10, 0), (6, 1)] [] (5, 0) []).2.1 (by decide)
      (by decide)).trans (by decide)
  · exact (C7_dealer_turn freshDeck [] [none] (0, 0) []).2.2.2.2 RESULT_TIE (by decide)

theorem promptLoop_cases (inputs : List InputLine) :
    promptLoop inputs = none ∨
    promptLoop inputs = some (ClientCrash.attributeError "pack_payload_client") := by
  induction inputs with
  | nil => exact Or.inl rfl
  | cons move rest ih =>
    rw [promptLoop]
    split
    · exact Or.inr rfl
    · split
      · exact Or.inr rfl
      · exact ih

/-- C8 (code bug): the decision-prompt behavior the claim describes never
happens, because every send in client.py `get_player_action` goes through
`protocol.pack_payload_client`, a name src/protocol.py does not define (its
function is called `build_client_payload`).  The attribute lookup raises
`AttributeError` before anything is sent: at a score of exactly 21 the
function raises immediately instead of auto-sending stand; below 21 it
raises at the first case-insensitive h/hit or s/stand line; an invalid line
still re-prompts (input and lowercasing precede the send); and on every
input the function either blocks or raises — it never returns an action. -/
theorem C8_decision_crash (sum : Nat) (inputs : List InputLine) (move : InputLine) :
    ("pack_payload_client" ∉ protocol_module_attrs) ∧
    ("build_client_payload" ∈ protocol_module_attrs) ∧
    (get_player_action 21 inputs =
      some (ClientCrash.attributeError "pack_payload_client")) ∧
    (sum ≠ 21 → (lowerLine move = ['h'] ∨ lowerLine move = ['h', 'i', 't']) →
      get_player_action sum (move :: inputs) =
        some (ClientCrash.attributeError "pack_payload_client")) ∧
    (sum ≠ 21 → (lowerLine move = ['s'] ∨ lowerLine move = ['s', 't', 'a', 'n', 'd']) →
      get_player_action sum (move :: inputs) =
        some (ClientCrash.attributeError "pack_payload_client")) ∧
    (sum ≠ 21 → ¬(lowerLine move = ['h'] ∨ lowerLine move = ['h', 'i', 't']) →
      ¬(lowerLine move = ['s'] ∨ lowerLine move = ['s', 't', 'a', 'n', 'd']) →
      get_player_action sum (move :: inputs) = get_player_action sum inputs) ∧
    (∀ (s : Nat) (ins : List InputLine), get_player_action s ins = none ∨
      get_player_action s ins = some (ClientCrash.attributeError "pack_payload_client")) := by
  refine ⟨by decide, by decide, by rw [get_player_action, if_pos rfl], ?_, ?_, ?_, ?_⟩
  · intro hs hm
    rw [get_player_action, if_neg hs, promptLoop, if_pos hm]
  · intro hs hm
    have hnot : ¬(lowerLine move = ['h'] ∨ lowerLine move = ['h', 'i', 't']) := by
      rcases hm with hm | hm <;> rw [hm] <;> simp
    rw [get_player_action, if_neg hs, promptLoop, if_neg hnot, if_pos hm]
  · intro hs hnh hns
    rw [get_player_action, if_neg hs, get_player_action, if_neg hs,
        promptLoop, if_neg hnh, if_neg hns]
  · intro s ins
    by_cases hs : s = 21
    · subst hs
      exact Or.inr (by rw [get_player_action, if_pos rfl])
    · rw [get_player_action, if_neg hs]
      exact promptLoop_cases ins

/-- C8 (witness): the crash evaluated at concrete prompts — auto-stand at
21 raises at once, "HIT" and "S" raise at the send, and "q" re-prompts. -/
theorem C8_decision_crash_witness :
    get_player_action 21 [['x']] =
      some (ClientCrash.attributeError "pack_payload_client") ∧
    get_player_action 18 [['H', 'I', 'T']] =
      some (ClientCrash.attributeError "pack_payload_client") ∧
    get_player_action 18 [['S']] =
      some (ClientCrash.attributeError "pack_payload_client") ∧
    get_player_action 18 [['q'], ['h']] = get_player_action 18 [['h']] := by
  refine ⟨(C8_decision_crash 18 [['x']] ['x']).2.2.1,
          (C8_decision_crash 18 [] ['H', 'I', 'T']).2.2.2.1 (by decide) (by decide),
          (C8_decision_crash 18 [] ['S']).2.2.2.2.1 (by decide) (by decide),
          (C8_decision_crash 18 [['h']] ['q']).2.2.2.2.2.1
            (by decide) (by decide) (by decide)⟩

/-- The end-of-round branch in isolation (the behavior the spec intends for
the client): the card is shown exactly when its rank is nonzero, the
matching WIN/TIE/LOSS line is printed, a win is added for WIN and also for
TIE, the rounds-completed counter is bumped, the round-local shadow state
is reset, and on the last requested round the final output line carries the
win rate pair and the loop returns.  In the program as staged this branch
is unreachable (see the C9 theorem below). -/
theorem handle_terminal_spec (total_rounds : Nat) (st : ClientState) (result rank suit : Nat) :
    ((ClientEvent.drawnCard rank suit ∈
        (handle_terminal_payload total_rounds st result rank suit).2.1) ↔ rank ≠ 0) ∧
    (result = RESULT_WIN →
      ClientEvent.resultWin ∈ (handle_terminal_payload total_rounds st result rank suit).2.1) ∧
    (result = RESULT_TIE →
      ClientEvent.resultTie ∈ (handle_terminal_payload total_rounds st result rank suit).2.1) ∧
    (result ≠ RESULT_WIN → result ≠ RESULT_TIE →
      ClientEvent.resultLoss ∈ (handle_terminal_payload total_rounds st result rank suit).2.1) ∧
    (result = RESULT_WIN ∨ result = RESULT_TIE →
      (handle_terminal_payload total_rounds st result rank suit).1.wins_count
        = st.wins_count + 1) ∧
    (result ≠ RESULT_WIN → result ≠ RESULT_TIE →
      (handle_terminal_payload total_rounds st result rank suit).1.wins_count
        = st.wins_count) ∧
    ((handle_terminal_payload total_rounds st result rank suit).1.rounds_completed
      = st.rounds_completed + 1) ∧
    ((handle_terminal_payload total_rounds st result rank suit).1.player_sum = 0 ∧
     (handle_terminal_payload total_rounds st result rank suit).1.ace_counter = 0 ∧
     (handle_terminal_payload total_rounds st result rank suit).1.cards_counter = 0 ∧
     (handle_terminal_payload total_rounds st result rank suit).1.is_player_turn = true) ∧
    (st.rounds_completed + 1 = total_rounds →
      (handle_terminal_payload total_rounds st result rank suit).2.1.getLast?
          = some (ClientEvent.finished
              ((handle_terminal_payload total_rounds st result rank suit).1.wins_count)
              total_rounds) ∧
      (handle_terminal_payload total_rounds st result rank suit).2.2 = true) ∧
    (st.rounds_completed + 1 ≠ total_rounds →
      (handle_terminal_payload total_rounds st result rank suit).2.2 = false) := by
  unfold handle_terminal_payload
  by_cases hw : result = RESULT_WIN <;> by_cases ht : result = RESULT_TIE <;>
    by_cases hr : rank = 0 <;> by_cases hrc : st.rounds_completed + 1 = total_rounds <;>
      simp_all [RESULT_WIN, RESULT_TIE, List.getLast?_append, List.getLast?_concat]

/-- C9 (code bug): the terminal-payload handling the claim describes never
runs, because client.py `run_game_loop` parses incoming packets with
`protocol.unpack_payload_server` (line 100), a name src/protocol.py does
not define (its function is called `parse_server_payload`).  The first
`recv` that delivers a full 9-byte frame — such as any ServerPayload the
server sends — hits the attribute lookup, and the `AttributeError` escapes
the `except OSError` handler, aborting the game loop before any payload is
parsed: no result line, no tie-as-win count, no win rate is ever
produced. -/
theorem C9_payload_crash (data : List Nat) :
    ("unpack_payload_server" ∉ protocol_module_attrs) ∧
    ("parse_server_payload" ∈ protocol_module_attrs) ∧
    (9 ≤ data.length →
      run_game_loop_recv data =
        some (ClientCrash.attributeError "unpack_payload_server")) ∧
    (run_game_loop_recv (build_server_payload RESULT_TIE 0 0) =
      some (ClientCrash.attributeError "unpack_payload_server")) ∧
    run_game_loop_recv [] = none := by
  refine ⟨by decide, by decide, ?_, by decide, rfl⟩
  intro h
  rw [run_game_loop_recv, if_neg (by omega), if_pos h]

/-- C9 (witness): the crash evaluated at the 9-byte TIE sentinel payload
the server sends at the end of a round. -/
theorem C9_payload_crash_witness :
    run_game_loop_recv (build_server_payload RESULT_TIE 0 0) =
      some (ClientCrash.attributeError "unpack_payload_server") :=
  ((C9_payload_crash (build_server_payload RESULT_TIE 0 0)).2.2.1 (by decide))

end Hackathon
